import Mathlib

/-!
Verification of the DeepCAL++ Decision Resolution & Ranking Engine
(`src/backend/core/deepcal_core.py`, `src/backend/core/deepcal_utils.py`).

Shallow embedding conventions:
* `numpy`/`pandas` floating-point values are modelled as real numbers (`ℝ`);
  `np.sqrt` is `Real.sqrt`, `1e-9`/`1e-10` are the corresponding real literals.
* A pandas DataFrame produced by `process_logistics_data` and consumed by
  `run_topsis` is a list of rows (`TRow`) plus a flag recording whether the
  optional `tracking` column is present (`TDF.hasTracking`).
* Python dictionaries with optional keys are structures of `Option` fields;
  `d.get(k, v)` is `Option.getD`.
* `np.argsort` is modelled as a stable ascending sort of indices (ties keep
  ascending index order).  numpy's default introsort is unspecified on ties,
  but for the small arrays this engine sorts it takes the insertion-sort path,
  which is stable; the documented `kind='stable'` behaviour coincides.
* Python's `sorted(..., reverse=True)` is a stable descending sort, modelled
  with `List.insertionSort` over the reflexive relation `scoreGE`.
-/

noncomputable section

namespace DeepCAL

/-- One row of the processed forwarder DataFrame as consumed by `run_topsis`:
`cost`, `time`, `reliability` are float columns, `tracking` a boolean column,
plus the `id`/`name` identity columns (optional in the raw records). -/
structure TRow where
  id : Option String
  name : Option String
  cost : ℝ
  time : ℝ
  reliability : ℝ
  tracking : Bool

instance : Inhabited TRow := ⟨⟨none, none, 0, 0, 0, false⟩⟩

/-- The decision DataFrame: rows plus presence of the optional `tracking`
column (`if 'tracking' in df.columns`). -/
structure TDF where
  rows : List TRow
  hasTracking : Bool

/-- Training data (`get_training_data()` result): optional per-criterion
weight multipliers, uncertainty, grey delta and per-forwarder score
multipliers.  Dictionaries are association lists. -/
structure TrainingData where
  weight_adjustments : Option (List (String × ℝ))
  uncertainty : Option ℝ
  grey_delta : Option ℝ
  forwarder_adjustments : Option (List (String × ℝ))

/-- Euclidean norm of a column, `np.linalg.norm(X, axis=0)` for one column. -/
def sqNorm (xs : List ℝ) : ℝ := Real.sqrt (xs.map (fun x => x ^ 2)).sum

/-- `norms[norms == 0] = 1e-10` in `normalize_matrix`. -/
def fixNorm (x : ℝ) : ℝ := if x = 0 then 1e-10 else x

/-- Numeric value of the boolean `tracking` column (`astype(int)`). -/
def trackVal (b : Bool) : ℝ := if b then 1 else 0

/-- Column norm of the `cost` column after the zero-norm substitution. -/
def costNorm (df : TDF) : ℝ := fixNorm (sqNorm (df.rows.map TRow.cost))

/-- Column norm of the `time` column after the zero-norm substitution. -/
def timeNorm (df : TDF) : ℝ := fixNorm (sqNorm (df.rows.map TRow.time))

/-- Column norm of the `reliability` column after the zero-norm substitution. -/
def relNorm (df : TDF) : ℝ := fixNorm (sqNorm (df.rows.map TRow.reliability))

/-- Column norm of the `tracking` column after the zero-norm substitution. -/
def trackNorm (df : TDF) : ℝ := fixNorm (sqNorm (df.rows.map (fun r => trackVal r.tracking)))

/-- Entry of `normalize_matrix` in the `cost` column. -/
def nCost (df : TDF) (r : TRow) : ℝ := r.cost / costNorm df

/-- Entry of `normalize_matrix` in the `time` column. -/
def nTime (df : TDF) (r : TRow) : ℝ := r.time / timeNorm df

/-- Entry of `normalize_matrix` in the `reliability` column. -/
def nRel (df : TDF) (r : TRow) : ℝ := r.reliability / relNorm df

/-- Entry of `normalize_matrix` in the `tracking` column. -/
def nTrack (df : TDF) (r : TRow) : ℝ := trackVal r.tracking / trackNorm df

/-- Number of criteria columns: `['cost','time','reliability']` plus
`'tracking'` when the column is present. -/
def ncols (df : TDF) : ℕ := if df.hasTracking then 4 else 3

/-- Name of the i-th criteria column (the fixed `columns` order). -/
def colName : ℕ → String
  | 0 => "cost"
  | 1 => "time"
  | 2 => "reliability"
  | _ => "tracking"

/-- The i-th entry of `np.array(weights[:len(columns)])`; indices beyond the
active columns are conventionally 0 (they are never used downstream). -/
def wTrunc (df : TDF) (weights : List ℝ) (i : ℕ) : ℝ :=
  if i < ncols df then weights.getD i 0 else 0

/-- Whether `training_data and 'weight_adjustments' in training_data` holds. -/
def hasWA : Option TrainingData → Bool
  | some t => t.weight_adjustments.isSome
  | none => false

/-- Lookup of a column name in `training_data['weight_adjustments']`. -/
def waLookup (td : Option TrainingData) (c : String) : Option ℝ :=
  match td with
  | some t =>
    match t.weight_adjustments with
    | some wa => wa.lookup c
    | none => none
  | none => none

/-- The i-th weight after the per-criterion training multiplier
(`if col in weight_adjustments and i < len(weights): weights[i] *= ...`). -/
def wAdj (df : TDF) (weights : List ℝ) (td : Option TrainingData) (i : ℕ) : ℝ :=
  match waLookup td (colName i) with
  | some m =>
    if i < min weights.length (ncols df) then wTrunc df weights i * m else wTrunc df weights i
  | none => wTrunc df weights i

/-- `np.sum(weights)` over the truncated, multiplier-adjusted weight array. -/
def wAdjSum (df : TDF) (weights : List ℝ) (td : Option TrainingData) : ℝ :=
  ∑ i ∈ Finset.range (ncols df), wAdj df weights td i

/-- The weight actually multiplied into column i of the weighted matrix:
renormalized multiplier-adjusted weights when training weight adjustments are
present, otherwise the truncated input weights. -/
def finalW (df : TDF) (weights : List ℝ) (td : Option TrainingData) (i : ℕ) : ℝ :=
  if hasWA td then wAdj df weights td i / wAdjSum df weights td else wTrunc df weights i

/-- Weighted normalized entry, `cost` column. -/
def wCost (df : TDF) (weights : List ℝ) (td : Option TrainingData) (r : TRow) : ℝ :=
  nCost df r * finalW df weights td 0

/-- Weighted normalized entry, `time` column. -/
def wTime (df : TDF) (weights : List ℝ) (td : Option TrainingData) (r : TRow) : ℝ :=
  nTime df r * finalW df weights td 1

/-- Weighted normalized entry, `reliability` column. -/
def wRel (df : TDF) (weights : List ℝ) (td : Option TrainingData) (r : TRow) : ℝ :=
  nRel df r * finalW df weights td 2

/-- Weighted normalized entry, `tracking` column. -/
def wTrack (df : TDF) (weights : List ℝ) (td : Option TrainingData) (r : TRow) : ℝ :=
  nTrack df r * finalW df weights td 3

/-- `np.max` over a column (columns are nonempty in every actual call). -/
def listMax : List ℝ → ℝ
  | [] => 0
  | x :: xs => xs.foldl max x

/-- `np.min` over a column (columns are nonempty in every actual call). -/
def listMin : List ℝ → ℝ
  | [] => 0
  | x :: xs => xs.foldl min x

/-- Criteria type of column i, from `criteria_types[:len(columns)]`. -/
def ctype (ct : List String) (i : ℕ) : String := ct.getD i ""

/-- `determine_ideal`, ideal component of the `cost` column. -/
def idealCost (df : TDF) (weights : List ℝ) (ct : List String) (td : Option TrainingData) : ℝ :=
  if ctype ct 0 = "benefit" then listMax (df.rows.map (wCost df weights td))
  else listMin (df.rows.map (wCost df weights td))

/-- `determine_ideal`, anti-ideal component of the `cost` column. -/
def antiCost (df : TDF) (weights : List ℝ) (ct : List String) (td : Option TrainingData) : ℝ :=
  if ctype ct 0 = "benefit" then listMin (df.rows.map (wCost df weights td))
  else listMax (df.rows.map (wCost df weights td))

/-- `determine_ideal`, ideal component of the `time` column. -/
def idealTime (df : TDF) (weights : List ℝ) (ct : List String) (td : Option TrainingData) : ℝ :=
  if ctype ct 1 = "benefit" then listMax (df.rows.map (wTime df weights td))
  else listMin (df.rows.map (wTime df weights td))

/-- `determine_ideal`, anti-ideal component of the `time` column. -/
def antiTime (df : TDF) (weights : List ℝ) (ct : List String) (td : Option TrainingData) : ℝ :=
  if ctype ct 1 = "benefit" then listMin (df.rows.map (wTime df weights td))
  else listMax (df.rows.map (wTime df weights td))

/-- `determine_ideal`, ideal component of the `reliability` column. -/
def idealRel (df : TDF) (weights : List ℝ) (ct : List String) (td : Option TrainingData) : ℝ :=
  if ctype ct 2 = "benefit" then listMax (df.rows.map (wRel df weights td))
  else listMin (df.rows.map (wRel df weights td))

/-- `determine_ideal`, anti-ideal component of the `reliability` column. -/
def antiRel (df : TDF) (weights : List ℝ) (ct : List String) (td : Option TrainingData) : ℝ :=
  if ctype ct 2 = "benefit" then listMin (df.rows.map (wRel df weights td))
  else listMax (df.rows.map (wRel df weights td))

/-- `determine_ideal`, ideal component of the `tracking` column. -/
def idealTrack (df : TDF) (weights : List ℝ) (ct : List String) (td : Option TrainingData) : ℝ :=
  if ctype ct 3 = "benefit" then listMax (df.rows.map (wTrack df weights td))
  else listMin (df.rows.map (wTrack df weights td))

/-- `determine_ideal`, anti-ideal component of the `tracking` column. -/
def antiTrack (df : TDF) (weights : List ℝ) (ct : List String) (td : Option TrainingData) : ℝ :=
  if ctype ct 3 = "benefit" then listMin (df.rows.map (wTrack df weights td))
  else listMax (df.rows.map (wTrack df weights td))

/-- `calculate_separation` from the ideal point (`S+`): Euclidean distance of
a row of the weighted matrix from the ideal vector. -/
def sPlus (df : TDF) (weights : List ℝ) (ct : List String) (td : Option TrainingData)
    (r : TRow) : ℝ :=
  Real.sqrt ((wCost df weights td r - idealCost df weights ct td) ^ 2 +
    (wTime df weights td r - idealTime df weights ct td) ^ 2 +
    (wRel df weights td r - idealRel df weights ct td) ^ 2 +
    (if df.hasTracking then (wTrack df weights td r - idealTrack df weights ct td) ^ 2 else 0))

/-- `calculate_separation` from the anti-ideal point (`S-`). -/
def sMinus (df : TDF) (weights : List ℝ) (ct : List String) (td : Option TrainingData)
    (r : TRow) : ℝ :=
  Real.sqrt ((wCost df weights td r - antiCost df weights ct td) ^ 2 +
    (wTime df weights td r - antiTime df weights ct td) ^ 2 +
    (wRel df weights td r - antiRel df weights ct td) ^ 2 +
    (if df.hasTracking then (wTrack df weights td r - antiTrack df weights ct td) ^ 2 else 0))

/-- `base_scores = s_minus / (s_plus + s_minus + 1e-9)` for one row. -/
def baseScore (df : TDF) (weights : List ℝ) (ct : List String) (td : Option TrainingData)
    (r : TRow) : ℝ :=
  sMinus df weights ct td r / (sPlus df weights ct td r + sMinus df weights ct td r + 1e-9)

/-- The list of base closeness scores of `run_topsis`, in input row order. -/
def baseScoresList (df : TDF) (weights : List ℝ) (ct : List String)
    (td : Option TrainingData) : List ℝ :=
  df.rows.map (baseScore df weights ct td)

/-- `neutrosophic_transform`: crisp value to a (T, I, F) triplet. -/
def neutrosophic_transform (x : ℝ) (uncertainty : ℝ) : ℝ × ℝ × ℝ :=
  let T := max (min x 1) 0
  let I := min uncertainty (1 - T)
  let F := max 0 (1 - T - I)
  (T, I, F)

/-- `neutrosophic_score`: `T - F - 0.5 * I`. -/
def neutrosophic_score (t : ℝ × ℝ × ℝ) : ℝ := t.1 - t.2.2 - 0.5 * t.2.1

/-- `grey_transform`: crisp value to a clamped interval. -/
def grey_transform (x : ℝ) (delta : ℝ) : ℝ × ℝ := (max (x - delta) 0, min (x + delta) 1)

/-- `grey_score`: interval midpoint. -/
def grey_score (iv : ℝ × ℝ) : ℝ := (iv.1 + iv.2) / 2

/-- The uncertainty level used by the neutrosophic branch: the training value
when present, else the default 0.1. -/
def uncOf : Option TrainingData → ℝ
  | some t => t.uncertainty.getD 0.1
  | none => 0.1

/-- The delta used by the grey branch: the training value when present, else
the default 0.2. -/
def deltaOf : Option TrainingData → ℝ
  | some t => t.grey_delta.getD 0.2
  | none => 0.2

/-- The logic-extension step of `run_topsis`: `if use_neutrosophic: ...
elif use_grey: ... else: scores = base_scores`. -/
def extScore (use_neutrosophic use_grey : Bool) (td : Option TrainingData) (x : ℝ) : ℝ :=
  if use_neutrosophic then neutrosophic_score (neutrosophic_transform x (uncOf td))
  else if use_grey then grey_score (grey_transform x (deltaOf td))
  else x

/-- The `scores` array of `run_topsis` (post-extension), in input row order. -/
def scoresList (df : TDF) (weights : List ℝ) (ct : List String) (use_neutrosophic use_grey : Bool)
    (td : Option TrainingData) : List ℝ :=
  (baseScoresList df weights ct td).map (extScore use_neutrosophic use_grey td)

/-- Ascending comparison used to model `np.argsort(scores)`: by value, ties by
original index (stable ascending sort). -/
def idxLe (v : List ℝ) (i j : ℕ) : Prop :=
  v.getD i 0 < v.getD j 0 ∨ (v.getD i 0 = v.getD j 0 ∧ i ≤ j)

instance (v : List ℝ) : DecidableRel (idxLe v) := fun i j =>
  inferInstanceAs (Decidable (v.getD i 0 < v.getD j 0 ∨ (v.getD i 0 = v.getD j 0 ∧ i ≤ j)))

/-- `ranked = np.argsort(scores)[::-1]`. -/
def argsortDesc (v : List ℝ) : List ℕ :=
  (List.insertionSort (idxLe v) (List.range v.length)).reverse

/-- One output record of `run_topsis`.  Fields gated by `analysis_depth` in
the source are `Option`-valued (`none` when the key is absent).  The
depth-4 `criterionContributions` list and the randomized `commentary` string
are not modelled (no claim mentions them; the commentary is produced with
`np.random.choice`). -/
structure RankedEntry where
  id : String
  name : String
  rank : ℕ
  score : ℝ
  costFactor : Option ℝ
  timeFactor : Option ℝ
  reliabilityFactor : Option ℝ
  hasTracking : Option Bool
  cost : Option ℝ
  deliveryTime : Option ℝ
  reliabilityPct : Option ℝ
  separation_ideal : Option ℝ
  separation_negative : Option ℝ

instance : Inhabited RankedEntry := ⟨⟨"", "", 0, 0, none, none, none, none, none, none, none, none, none⟩⟩

/-- The entry built for original row index i with the given 1-based rank,
before the per-forwarder training adjustment. -/
def mkEntry (df : TDF) (weights : List ℝ) (ct : List String) (use_neutrosophic use_grey : Bool)
    (analysis_depth : ℕ) (td : Option TrainingData) (rank i : ℕ) : RankedEntry :=
  let r := df.rows.getD i default
  { id := r.id.getD ("f" ++ toString (i + 1))
    name := r.name.getD ("F" ++ toString (i + 1))
    rank := rank
    score := (scoresList df weights ct use_neutrosophic use_grey td).getD i 0
    costFactor := if 2 ≤ analysis_depth then some (nCost df r) else none
    timeFactor := if 2 ≤ analysis_depth then some (nTime df r) else none
    reliabilityFactor := if 2 ≤ analysis_depth then some (nRel df r) else none
    hasTracking :=
      if (2 ≤ analysis_depth ∧ df.hasTracking = true) ∨ 3 ≤ analysis_depth then some r.tracking
      else none
    cost := if 3 ≤ analysis_depth then some r.cost else none
    deliveryTime := if 3 ≤ analysis_depth then some r.time else none
    reliabilityPct := if 3 ≤ analysis_depth then some (r.reliability * 100) else none
    separation_ideal := if 4 ≤ analysis_depth then some (sPlus df weights ct td r) else none
    separation_negative := if 4 ≤ analysis_depth then some (sMinus df weights ct td r) else none }

/-- Lookup of a forwarder id in `training_data['forwarder_adjustments']`. -/
def faLookup (td : Option TrainingData) (fid : String) : Option ℝ :=
  match td with
  | some t =>
    match t.forwarder_adjustments with
    | some fa => fa.lookup fid
    | none => none
  | none => none

/-- Per-forwarder training score adjustment:
`entry["score"] = min(1.0, max(0.0, entry["score"] * adjustment))`. -/
def applyFwdAdj (td : Option TrainingData) (e : RankedEntry) : RankedEntry :=
  match faLookup td e.id with
  | some m => { e with score := min 1 (max 0 (e.score * m)) }
  | none => e

/-- The `results` list built by the main loop of `run_topsis`: entries for the
index list `ranked`, with ranks counted from k, each entry adjusted by the
per-forwarder training multiplier. -/
def buildResults (df : TDF) (weights : List ℝ) (ct : List String)
    (use_neutrosophic use_grey : Bool) (analysis_depth : ℕ) (td : Option TrainingData) :
    ℕ → List ℕ → List RankedEntry
  | _, [] => []
  | k, i :: is =>
    applyFwdAdj td (mkEntry df weights ct use_neutrosophic use_grey analysis_depth td k i) ::
      buildResults df weights ct use_neutrosophic use_grey analysis_depth td (k + 1) is

/-- Descending score comparison used by the final
`sorted(results, key=lambda x: x["score"], reverse=True)`. -/
def scoreGE (a b : RankedEntry) : Prop := b.score ≤ a.score

instance : DecidableRel scoreGE := fun a b => inferInstanceAs (Decidable (b.score ≤ a.score))

instance : IsTotal RankedEntry scoreGE := ⟨fun a b => le_total b.score a.score⟩

instance : IsTrans RankedEntry scoreGE := ⟨fun _ _ _ hab hbc => le_trans hbc hab⟩

/-- The final rank reassignment `for rank, result in enumerate(results, 1)`. -/
def reassignRanks : ℕ → List RankedEntry → List RankedEntry
  | _, [] => []
  | k, e :: es => { e with rank := k } :: reassignRanks (k + 1) es

/-- `run_topsis`: the full ranking entry point. -/
def run_topsis (df : TDF) (weights : List ℝ) (ct : List String)
    (use_neutrosophic use_grey : Bool) (analysis_depth : ℕ) (td : Option TrainingData) :
    List RankedEntry :=
  let scores := scoresList df weights ct use_neutrosophic use_grey td
  reassignRanks 1 (List.insertionSort scoreGE
    (buildResults df weights ct use_neutrosophic use_grey analysis_depth td 1
      (argsortDesc scores)))

/-- `build_pairwise_weights` (deepcal_utils): AHP column normalization, row
averages, renormalization. -/
def build_pairwise_weights (n : ℕ) (matrix : Fin n → Fin n → ℝ) : Fin n → ℝ :=
  let column_sums : Fin n → ℝ := fun j => ∑ i, matrix i j
  let normalized : Fin n → Fin n → ℝ := fun i j => matrix i j / column_sums j
  let weights : Fin n → ℝ := fun i => (∑ j, normalized i j) / n
  fun i => weights i / ∑ k, weights k

/-- `adjust_for_urgency` (identical copies live in deepcal_core and
deepcal_utils): boost the time weight at the expense of the cost weight for
express/rush urgency, clip negatives to 0, renormalize to sum 1. -/
def adjust_for_urgency (weights : List ℝ) (urgency : String) : List ℝ :=
  let aw :=
    if urgency = "express" then
      let boost := weights.getD 1 0 * 0.5
      (weights.set 1 (weights.getD 1 0 + boost)).set 0 (weights.getD 0 0 - boost)
    else if urgency = "rush" then
      let boost := weights.getD 1 0 * 1.0
      (weights.set 1 (weights.getD 1 0 + boost)).set 0 (weights.getD 0 0 - boost)
    else weights
  let clipped := aw.map (fun w => max 0 w)
  clipped.map (fun w => w / clipped.sum)

/-- A raw forwarder record handed to `process_logistics_data` (a dictionary;
every field may be absent). -/
structure RawForwarder where
  id : Option String
  name : Option String
  cost : Option ℝ
  time : Option ℝ
  reliability : Option ℝ
  tracking : Option Bool

/-- A row of the DataFrame built by `process_logistics_data`: `tracking`
coerced to 0/1, numeric columns to float (the identity in the real-number
model). -/
structure ProcessedRow where
  id : Option String
  name : Option String
  cost : Option ℝ
  time : Option ℝ
  reliability : Option ℝ
  tracking : Option ℝ

/-- The per-record coercion applied by `process_logistics_data`. -/
def coerceForwarder (f : RawForwarder) : ProcessedRow :=
  { id := f.id
    name := f.name
    cost := f.cost
    time := f.time
    reliability := f.reliability
    tracking := f.tracking.map (fun b => if b then (1 : ℝ) else 0) }

/-- Whether the DataFrame built from the records has a `tracking` column:
`pd.DataFrame` creates the column when at least one record carries the key. -/
def trackingColumnPresent (forwarders : List RawForwarder) : Bool :=
  forwarders.any (fun f => f.tracking.isSome)

/-- Whether the `tracking` column contains a missing value (NaN): the column
exists but some record lacks the key.  `df['tracking'].astype(int)` raises a
`ValueError` exactly then (a NaN cannot be converted to int); a uniformly
present column of booleans converts cleanly, and an absent column is
skipped. -/
def trackingColumnHasNaN (forwarders : List RawForwarder) : Bool :=
  trackingColumnPresent forwarders && !(forwarders.all (fun f => f.tracking.isSome))

/-- `process_logistics_data`: builds the DataFrame.  The source performs no
name validation and defines or raises no `SchemaError`; it is
`pd.DataFrame(forwarders)` plus the column coercions.  The one failure mode is
the `ValueError` raised by `df['tracking'].astype(int)` when the `tracking`
column mixes present and absent values (NaN); `astype(float)` on the numeric
columns keeps NaN and cannot fail for real-valued records, so it is the
identity in this model. -/
def process_logistics_data (forwarders : List RawForwarder) :
    Except String (List ProcessedRow) :=
  if trackingColumnHasNaN forwarders then
    Except.error "ValueError: cannot convert non-finite values to integer"
  else
    Except.ok (forwarders.map coerceForwarder)

/-- A record of the `routes` collection of a live snapshot or of the mirror. -/
structure RouteRec where
  id : Option String
  origin_country : Option String
  destination_country : Option String
  typical_transit_days : Option ℝ

/-- A record of the `rate_cards` collection. -/
structure RateCard where
  route_id : Option String
  cargo_type : Option String
  forwarder_id : Option String
  base_cost : Option ℝ

/-- A record of the `forwarders` collection. -/
structure ForwarderRec where
  id : Option String
  name : Option String
  cost : Option ℝ
  time : Option ℝ
  reliability : Option ℝ
  tracking : Option Bool

/-- A record of the `forwarder_services` collection. -/
structure ServiceRec where
  forwarder_id : Option String
  has_tracking : Option Bool

/-- A record of the `performance_analytics` collection. -/
structure AnalyticsRec where
  forwarder_id : Option String
  route_id : Option String
  on_time_rate : Option ℝ

/-- The live (Supabase) snapshot consumed by `load_forwarders_for_route`. -/
structure Snapshot where
  routes : List RouteRec
  rate_cards : List RateCard
  forwarders : List ForwarderRec
  forwarder_services : List ServiceRec
  performance_analytics : List AnalyticsRec

/-- The local mirror collections as returned by `get_base_forwarders`,
`get_base_routes`, `get_base_rate_cards`. -/
structure Mirror where
  forwarders : List ForwarderRec
  routes : List RouteRec
  rate_cards : List RateCard

/-- A forwarder dictionary as returned by the resolution cascade: the copied
forwarder record with `cost`/`time`/`reliability`/`tracking` attached. -/
structure JoinedForwarder where
  id : Option String
  name : Option String
  cost : ℝ
  time : Option ℝ
  reliability : ℝ
  tracking : Bool

/-- First route whose `origin_country`/`destination_country` match exactly;
its `id` (possibly absent). -/
def findRouteId (routes : List RouteRec) (origin destination : String) : Option String :=
  match routes.find? (fun r =>
      decide (r.origin_country = some origin) && decide (r.destination_country = some destination)) with
  | some r => r.id
  | none => none

/-- The forwarders-by-id dictionary lookup `forwarders_dict = {f.get('id'): f
for f in ...}`: on duplicate ids the last record wins. -/
def lookupForwarder (fs : List ForwarderRec) (fid : Option String) : Option ForwarderRec :=
  (fs.filter (fun f => decide (f.id = fid))).getLast?

/-- `forwarder['time']`: transit days of the first route with the matched id
(default 15); if no route carries that id the key keeps the forwarder
record's own value. -/
def routeTransit (routes : List RouteRec) (rid : String) (f : ForwarderRec) : Option ℝ :=
  match routes.find? (fun r => decide (r.id = some rid)) with
  | some r => some (r.typical_transit_days.getD 15)
  | none => f.time

/-- `forwarder['reliability']`: `on_time_rate` of the first analytics record
matching (forwarder_id, route_id), default 0.8; with no matching analytics the
forwarder record's own value is kept, and 0.8 only when that is also
absent. -/
def analyticsReliability (pas : List AnalyticsRec) (fid : Option String) (rid : String)
    (f : ForwarderRec) : ℝ :=
  match pas.find? (fun a => decide (a.forwarder_id = fid) && decide (a.route_id = some rid)) with
  | some a => a.on_time_rate.getD 0.8
  | none => f.reliability.getD 0.8

/-- `forwarder['tracking']`: `has_tracking` of the first service record
matching the forwarder id, default False; with no matching service the
forwarder record's own flag is kept, and False only when that is also
absent. -/
def serviceTracking (svcs : List ServiceRec) (fid : Option String) (f : ForwarderRec) : Bool :=
  match svcs.find? (fun s => decide (s.forwarder_id = fid)) with
  | some s => s.has_tracking.getD false
  | none => f.tracking.getD false

/-- Join of a single rate card in the live-snapshot pass of
`load_forwarders_for_route` (the card contributes iff it matches
(route_id, cargo_type) and its forwarder_id resolves). -/
def joinLiveCard (snap : Snapshot) (rid : String) (cargo : String) (card : RateCard) :
    Option JoinedForwarder :=
  if card.route_id = some rid ∧ card.cargo_type = some cargo then
    match lookupForwarder snap.forwarders card.forwarder_id with
    | some f => some
        { id := f.id
          name := f.name
          cost := card.base_cost.getD 0
          time := routeTransit snap.routes rid f
          reliability := analyticsReliability snap.performance_analytics card.forwarder_id rid f
          tracking := serviceTracking snap.forwarder_services card.forwarder_id f }
    | none => none
  else none

/-- Step 1 of the cascade: the live-snapshot join.  Empty when no route
matches or the matched route id is missing or falsy (`if route_id:`). -/
def liveJoin (snap : Snapshot) (origin destination cargo : String) : List JoinedForwarder :=
  match findRouteId snap.routes origin destination with
  | some rid => if rid = "" then [] else snap.rate_cards.filterMap (joinLiveCard snap rid cargo)
  | none => []

/-- Join of a single rate card in the local-mirror pass (step 2): identical
join logic except that the mirror has no service or analytics collections, so
reliability/tracking come from the forwarder record with the 0.8/False
defaults. -/
def joinMirrorCard (mirror : Mirror) (rid : String) (cargo : String) (card : RateCard) :
    Option JoinedForwarder :=
  if card.route_id = some rid ∧ card.cargo_type = some cargo then
    match lookupForwarder mirror.forwarders card.forwarder_id with
    | some f => some
        { id := f.id
          name := f.name
          cost := card.base_cost.getD 0
          time := routeTransit mirror.routes rid f
          reliability := f.reliability.getD 0.8
          tracking := f.tracking.getD false }
    | none => none
  else none

/-- Step 2 of the cascade: the local-mirror join. -/
def mirrorJoin (mirror : Mirror) (origin destination cargo : String) : List JoinedForwarder :=
  match findRouteId mirror.routes origin destination with
  | some rid => if rid = "" then [] else mirror.rate_cards.filterMap (joinMirrorCard mirror rid cargo)
  | none => []

/-- `generate_fallback_forwarders`: the fixed synthetic forwarder set (note:
no field of any kind tags these records as synthetic). -/
def generate_fallback_forwarders (origin destination : String) : List JoinedForwarder :=
  [ { id := some "f1", name := some "AfricaLogistics", cost := 1200, time := some 14,
      reliability := 0.85, tracking := true },
    { id := some "f2", name := some "GlobalFreight", cost := 950, time := some 18,
      reliability := 0.78, tracking := false },
    { id := some "f3", name := some "ExpressShip", cost := 1450, time := some 10,
      reliability := 0.92, tracking := true },
    { id := some "f4", name := some "TransAfrica", cost := 1100, time := some 15,
      reliability := 0.82, tracking := true },
    { id := some "f5", name := some "FastCargo", cost := 1350, time := some 12,
      reliability := 0.88, tracking := false } ]

/-- The tier a resolution result was computed from.  This is bookkeeping of
the model: the source function returns only the plain list, so the tier is
not part of its return value. -/
inductive Tier
  | live
  | mirrored
  | synthetic
deriving DecidableEq

/-- The cascade of `load_forwarders_for_route` paired with the tier that
produced the returned list (the pair is a modelling instrument; the source
returns only the first component). -/
def loadForwardersForRouteTiered (origin destination cargo : String)
    (use_supabase_data : Bool) (supabase_data : Option Snapshot) (mirror : Mirror) :
    List JoinedForwarder × Tier :=
  let fromLive :=
    match supabase_data with
    | some snap => if use_supabase_data then liveJoin snap origin destination cargo else []
    | none => []
  if fromLive.isEmpty then
    let fromMirror := mirrorJoin mirror origin destination cargo
    if fromMirror.isEmpty then (generate_fallback_forwarders origin destination, Tier.synthetic)
    else (fromMirror, Tier.mirrored)
  else (fromLive, Tier.live)

/-- `load_forwarders_for_route`: the resolution entry point.  The local mirror
store read by `get_base_forwarders`/`get_base_routes`/`get_base_rate_cards` is
passed explicitly. -/
def load_forwarders_for_route (origin destination cargo : String)
    (use_supabase_data : Bool) (supabase_data : Option Snapshot) (mirror : Mirror) :
    List JoinedForwarder :=
  (loadForwardersForRouteTiered origin destination cargo use_supabase_data supabase_data mirror).1

/-- `calculate_new_score`: the linear surrogate score used by the sensitivity
path (`(1-costFactor)*w0 + (1-timeFactor)*w1 + reliabilityFactor*w2 +
float(hasTracking)*w3`).  At depth 5, where sensitivity runs, all factor keys
are present; `getD` models the dictionary access. -/
def calculate_new_score (result : RankedEntry) (weights : List ℝ) : ℝ :=
  (1 - result.costFactor.getD 0) * weights.getD 0 0 +
    (1 - result.timeFactor.getD 0) * weights.getD 1 0 +
    result.reliabilityFactor.getD 0 * weights.getD 2 0 +
    (if result.hasTracking.getD false then (1 : ℝ) else 0) * weights.getD 3 0

/-- One perturbed weight vector of `calculate_sensitivity_changes`: multiply
index idx by factor, renormalize to sum 1. -/
def perturbWeights (weights : List ℝ) (idx : ℕ) (factor : ℝ) : List ℝ :=
  let nw := weights.set idx (weights.getD idx 0 * factor)
  nw.map (fun w => w / nw.sum)

/-- Percentage change of a recomputed score relative to the reported score. -/
def pctChange (result : RankedEntry) (newScore : ℝ) : ℝ :=
  (newScore - result.score) / result.score * 100

/-- `calculate_sensitivity_changes`: ±10% perturbation of the first three
weights, new score via the `calculate_new_score` surrogate, reported as
percentage change relative to the unperturbed reported score. -/
def calculate_sensitivity_changes (result : RankedEntry) (weights : List ℝ) : List ℝ :=
  [ pctChange result (calculate_new_score result (perturbWeights weights 0 1.1)),
    pctChange result (calculate_new_score result (perturbWeights weights 0 0.9)),
    pctChange result (calculate_new_score result (perturbWeights weights 1 1.1)),
    pctChange result (calculate_new_score result (perturbWeights weights 1 0.9)),
    pctChange result (calculate_new_score result (perturbWeights weights 2 1.1)),
    pctChange result (calculate_new_score result (perturbWeights weights 2 0.9)) ]

/-- Spec-side reading of the sensitivity contract (refinement comparison):
"recompute the score at ±10% weight perturbation (renormalizing the perturbed
vector), and report the percentage change relative to the unperturbed score",
with the score recomputed by the main TOPSIS closeness path (`baseScore`) for
the forwarder's row under the perturbed weights. -/
def spec_recomputed_changes (df : TDF) (ct : List String) (td : Option TrainingData)
    (result : RankedEntry) (weights : List ℝ) (r : TRow) : List ℝ :=
  [ pctChange result (baseScore df (perturbWeights weights 0 1.1) ct td r),
    pctChange result (baseScore df (perturbWeights weights 0 0.9) ct td r),
    pctChange result (baseScore df (perturbWeights weights 1 1.1) ct td r),
    pctChange result (baseScore df (perturbWeights weights 1 0.9) ct td r),
    pctChange result (baseScore df (perturbWeights weights 2 1.1) ct td r),
    pctChange result (baseScore df (perturbWeights weights 2 0.9) ct td r) ]

/-! ## Helper lemmas -/

lemma sum_map_div (l : List ℝ) (t : ℝ) : (l.map (fun w => w / t)).sum = l.sum / t := by
  induction l with
  | nil => simp
  | cons x xs ih => simp [ih, add_div]

lemma sum_le_sum_map_max (l : List ℝ) : l.sum ≤ (l.map (fun w => max 0 w)).sum := by
  induction l with
  | nil => simp
  | cons x xs ih => exact add_le_add (le_max_right 0 x) ih

lemma map_max_of_nonneg (l : List ℝ) (h : ∀ x ∈ l, 0 ≤ x) :
    l.map (fun w => max 0 w) = l := by
  induction l with
  | nil => rfl
  | cons x xs ih =>
    simp only [List.map_cons, List.cons.injEq]
    exact ⟨max_eq_right (h x (List.mem_cons_self x xs)),
      ih (fun y hy => h y (List.mem_cons_of_mem x hy))⟩

lemma adjust_for_urgency_sum (w0 w1 : ℝ) (rest : List ℝ) (urgency : String)
    (hs : 0 < (w0 :: w1 :: rest).sum) :
    (adjust_for_urgency (w0 :: w1 :: rest) urgency).sum = 1 := by
  have key : ∀ aw : List ℝ, aw.sum = (w0 :: w1 :: rest).sum →
      ((aw.map (fun w => max 0 w)).map
        (fun w => w / (aw.map (fun w => max 0 w)).sum)).sum = 1 := by
    intro aw haw
    have hpos : 0 < (aw.map (fun w => max 0 w)).sum :=
      lt_of_lt_of_le hs (haw ▸ sum_le_sum_map_max aw)
    rw [sum_map_div, div_self (ne_of_gt hpos)]
  unfold adjust_for_urgency
  by_cases h1 : urgency = "express"
  · simp only [h1, if_pos rfl]
    apply key
    simp only [List.getD_cons_succ, List.getD_cons_zero, List.set]
    simp [List.sum_cons]
    ring
  · by_cases h2 : urgency = "rush"
    · simp only [h1, h2, if_neg, if_pos rfl, ite_false]
      apply key
      simp only [List.getD_cons_succ, List.getD_cons_zero, List.set]
      simp [List.sum_cons]
      ring
    · simp only [h1, h2, ite_false]
      exact key _ rfl

/-! ## Claim theorems -/

lemma extScore_true_grey_irrelevant (ug : Bool) (td : Option TrainingData) :
    extScore true ug td = extScore true false td := by
  funext x
  simp [extScore]

lemma scoresList_true_grey_irrelevant (df : TDF) (weights : List ℝ) (ct : List String)
    (ug : Bool) (td : Option TrainingData) :
    scoresList df weights ct true ug td = scoresList df weights ct true false td := by
  unfold scoresList
  rw [extScore_true_grey_irrelevant]

lemma mkEntry_true_grey_irrelevant (df : TDF) (weights : List ℝ) (ct : List String)
    (ug : Bool) (analysis_depth : ℕ) (td : Option TrainingData) (rank i : ℕ) :
    mkEntry df weights ct true ug analysis_depth td rank i =
      mkEntry df weights ct true false analysis_depth td rank i := by
  unfold mkEntry
  rw [scoresList_true_grey_irrelevant]

lemma buildResults_true_grey_irrelevant (df : TDF) (weights : List ℝ) (ct : List String)
    (ug : Bool) (analysis_depth : ℕ) (td : Option TrainingData) :
    ∀ (idxs : List ℕ) (k : ℕ),
      buildResults df weights ct true ug analysis_depth td k idxs =
        buildResults df weights ct true false analysis_depth td k idxs := by
  intro idxs
  induction idxs with
  | nil => intro k; rfl
  | cons i is ih =>
    intro k
    unfold buildResults
    rw [mkEntry_true_grey_irrelevant, ih]

/-- C10: calling `run_topsis` with both `use_neutrosophic=True` and
`use_grey=True` does not fail; the neutrosophic branch takes precedence
(`if use_neutrosophic: ... elif use_grey: ...`), the grey transform has no
effect, and the result is identical to the same call with
`use_grey=False`. -/
theorem run_topsis_neutrosophic_precedence (df : TDF) (weights : List ℝ) (ct : List String)
    (analysis_depth : ℕ) (td : Option TrainingData) :
    run_topsis df weights ct true true analysis_depth td =
      run_topsis df weights ct true false analysis_depth td := by
  unfold run_topsis
  simp only [scoresList_true_grey_irrelevant, buildResults_true_grey_irrelevant]

/-- C2: each base closeness score of `run_topsis` equals
`S- / (S+ + S- + 1e-9)` with `S+`/`S-` the row's Euclidean separations from
the ideal and anti-ideal reference vectors, and every base score lies in
[0, 1], for any decision matrix with non-negative entries and non-negative
weights. -/
theorem base_score_formula_and_bounds (df : TDF) (weights : List ℝ) (ct : List String)
    (td : Option TrainingData)
    (hX : ∀ r ∈ df.rows, 0 ≤ r.cost ∧ 0 ≤ r.time ∧ 0 ≤ r.reliability)
    (hw : ∀ w ∈ weights, 0 ≤ w) :
    baseScoresList df weights ct td = df.rows.map (fun r =>
      sMinus df weights ct td r /
        (sPlus df weights ct td r + sMinus df weights ct td r + 1e-9)) ∧
    ∀ s ∈ baseScoresList df weights ct td, 0 ≤ s ∧ s ≤ 1 := by
  refine ⟨rfl, ?_⟩
  intro s hs
  simp only [baseScoresList, List.mem_map] at hs
  obtain ⟨r, _, rfl⟩ := hs
  have hp : 0 ≤ sPlus df weights ct td r := Real.sqrt_nonneg _
  have hm : 0 ≤ sMinus df weights ct td r := Real.sqrt_nonneg _
  have heps : (0 : ℝ) < 1e-9 := by norm_num
  have hden : 0 < sPlus df weights ct td r + sMinus df weights ct td r + 1e-9 := by linarith
  unfold baseScore
  exact ⟨div_nonneg hm hden.le, (div_le_one hden).mpr (by linarith)⟩

/-- Witness for C2 at a concrete all-zero decision matrix. -/
theorem base_score_formula_and_bounds_witness :
    (∀ r ∈ (⟨[⟨some "a", some "A", 0, 0, 0, false⟩], false⟩ : TDF).rows,
      0 ≤ r.cost ∧ 0 ≤ r.time ∧ 0 ≤ r.reliability) ∧
    (∀ w ∈ [(0.4 : ℝ), 0.3, 0.2, 0.1], 0 ≤ w) ∧
    ∀ s ∈ baseScoresList ⟨[⟨some "a", some "A", 0, 0, 0, false⟩], false⟩
      [(0.4 : ℝ), 0.3, 0.2, 0.1] ["cost", "cost", "benefit"] none, 0 ≤ s ∧ s ≤ 1 := by
  have h1 : ∀ r ∈ (⟨[⟨some "a", some "A", 0, 0, 0, false⟩], false⟩ : TDF).rows,
      0 ≤ r.cost ∧ 0 ≤ r.time ∧ 0 ≤ r.reliability := by
    intro r hr
    simp only [List.mem_singleton] at hr
    subst hr
    norm_num
  have h2 : ∀ w ∈ [(0.4 : ℝ), 0.3, 0.2, 0.1], 0 ≤ w := by
    intro w hw
    simp only [List.mem_cons, List.mem_nil_iff, or_false] at hw
    rcases hw with rfl | rfl | rfl | rfl
    all_goals norm_num
  exact ⟨h1, h2,
    (base_score_formula_and_bounds _ _ ["cost", "cost", "benefit"] none h1 h2).2⟩

/-- C3: every weight vector produced by the engine sums to 1 within 1e-6:
the AHP vector of `build_pairwise_weights` for a positive square matrix, the
vector returned by `adjust_for_urgency` for any urgency given non-negative
weights with positive sum, and the renormalized weight vector used inside
`run_topsis` after the per-criterion training multipliers. -/
theorem weight_vectors_sum_to_one :
    (∀ (n : ℕ) (A : Fin n → Fin n → ℝ), 0 < n → (∀ i j, 0 < A i j) →
      |(∑ i, build_pairwise_weights n A i) - 1| ≤ 1e-6) ∧
    (∀ (w0 w1 : ℝ) (rest : List ℝ) (urgency : String),
      (∀ x ∈ w0 :: w1 :: rest, 0 ≤ x) → 0 < (w0 :: w1 :: rest).sum →
      |(adjust_for_urgency (w0 :: w1 :: rest) urgency).sum - 1| ≤ 1e-6) ∧
    (∀ (df : TDF) (weights : List ℝ) (td : Option TrainingData),
      hasWA td = true → 0 < wAdjSum df weights td →
      |(∑ i ∈ Finset.range (ncols df), finalW df weights td i) - 1| ≤ 1e-6) := by
  refine ⟨?_, ?_, ?_⟩
  · intro n A hn hA
    haveI : Nonempty (Fin n) := Fin.pos_iff_nonempty.mp hn
    have hne : (Finset.univ : Finset (Fin n)).Nonempty := Finset.univ_nonempty
    have hcol : ∀ j : Fin n, 0 < ∑ i, A i j := fun j =>
      Finset.sum_pos (fun i _ => hA i j) hne
    have hwpos : ∀ i : Fin n, 0 < (∑ j, A i j / ∑ k, A k j) / n := by
      intro i
      apply div_pos
      · exact Finset.sum_pos (fun j _ => div_pos (hA i j) (hcol j)) hne
      · exact_mod_cast hn
    have hsum : 0 < ∑ i, (∑ j, A i j / ∑ k, A k j) / n :=
      Finset.sum_pos (fun i _ => hwpos i) hne
    have : (∑ i, build_pairwise_weights n A i) = 1 := by
      unfold build_pairwise_weights
      rw [← Finset.sum_div, div_self (ne_of_gt hsum)]
    rw [this]
    norm_num
  · intro w0 w1 rest urgency h0 hs
    rw [adjust_for_urgency_sum w0 w1 rest urgency hs]
    norm_num
  · intro df weights td hWA hpos
    have : (∑ i ∈ Finset.range (ncols df), finalW df weights td i) = 1 := by
      unfold finalW
      simp only [hWA, if_pos rfl, ite_true]
      rw [← Finset.sum_div]
      exact div_self (ne_of_gt hpos)
    rw [this]
    norm_num

/-- Witness for C3 at concrete inputs: a 2x2 all-ones comparison matrix, the
default weight vector under rush urgency, and a training adjustment doubling
the cost weight. -/
theorem weight_vectors_sum_to_one_witness :
    ((0 : ℕ) < 2 ∧ |(∑ i, build_pairwise_weights 2 (fun _ _ => 1) i) - 1| ≤ 1e-6) ∧
    (0 < ([(0.4 : ℝ), 0.3, 0.2, 0.1]).sum ∧
      |(adjust_for_urgency [(0.4 : ℝ), 0.3, 0.2, 0.1] "rush").sum - 1| ≤ 1e-6) ∧
    (hasWA (some ⟨some [("cost", 2)], none, none, none⟩) = true ∧
      0 < wAdjSum ⟨[], false⟩ [(0.4 : ℝ), 0.3, 0.2, 0.1]
        (some ⟨some [("cost", 2)], none, none, none⟩) ∧
      |(∑ i ∈ Finset.range (ncols ⟨[], false⟩), finalW ⟨[], false⟩ [(0.4 : ℝ), 0.3, 0.2, 0.1]
        (some ⟨some [("cost", 2)], none, none, none⟩) i) - 1| ≤ 1e-6) := by
  have e1 : ("cost" == "cost") = true := rfl
  have e2 : ("time" == "cost") = false := rfl
  have e3 : ("reliability" == "cost") = false := rfl
  have hW : 0 < wAdjSum ⟨[], false⟩ [(0.4 : ℝ), 0.3, 0.2, 0.1]
      (some ⟨some [("cost", 2)], none, none, none⟩) := by
    unfold wAdjSum
    have hn3 : ncols (⟨[], false⟩ : TDF) = 3 := rfl
    rw [hn3, Finset.sum_range_succ, Finset.sum_range_succ, Finset.sum_range_one]
    unfold wAdj waLookup colName wTrunc
    simp only [List.lookup, e1, e2, e3, hn3]
    norm_num
  have hnn : ∀ x ∈ [(0.4 : ℝ), 0.3, 0.2, 0.1], 0 ≤ x := by
    intro x hx
    simp only [List.mem_cons, List.mem_nil_iff, or_false] at hx
    rcases hx with rfl | rfl | rfl | rfl
    all_goals norm_num
  have hsum : 0 < ([(0.4 : ℝ), 0.3, 0.2, 0.1]).sum := by norm_num
  refine ⟨⟨by norm_num, (weight_vectors_sum_to_one.1 2 (fun _ _ => 1) (by norm_num)
    (fun _ _ => by norm_num))⟩, ⟨hsum, ?_⟩, ⟨rfl, hW, ?_⟩⟩
  · exact weight_vectors_sum_to_one.2.1 0.4 0.3 [0.2, 0.1] "rush" hnn hsum
  · exact weight_vectors_sum_to_one.2.2 ⟨[], false⟩ [(0.4 : ℝ), 0.3, 0.2, 0.1]
      (some ⟨some [("cost", 2)], none, none, none⟩) rfl hW

/-- C5: `adjust_for_urgency` boosts the time weight (index 1) by 50% for
express and 100% for rush, subtracting the same absolute amount from the cost
weight (index 0), leaves weights unchanged for standard, and always clips
negatives to zero and renormalizes to sum 1. -/
theorem adjust_for_urgency_formula (w0 w1 : ℝ) (rest : List ℝ) :
    (adjust_for_urgency (w0 :: w1 :: rest) "express" =
      (((w0 - w1 * 0.5) :: (w1 + w1 * 0.5) :: rest).map (fun w => max 0 w)).map (fun w =>
        w / ((((w0 - w1 * 0.5) :: (w1 + w1 * 0.5) :: rest).map (fun w => max 0 w)).sum))) ∧
    (adjust_for_urgency (w0 :: w1 :: rest) "rush" =
      (((w0 - w1) :: (w1 + w1) :: rest).map (fun w => max 0 w)).map (fun w =>
        w / ((((w0 - w1) :: (w1 + w1) :: rest).map (fun w => max 0 w)).sum))) ∧
    ((∀ x ∈ w0 :: w1 :: rest, 0 ≤ x) → (w0 :: w1 :: rest).sum = 1 →
      adjust_for_urgency (w0 :: w1 :: rest) "standard" = w0 :: w1 :: rest) := by
  refine ⟨?_, ?_, ?_⟩
  · simp [adjust_for_urgency]
  · have hv : (w0 - w1 * 1.0) :: (w1 + w1 * 1.0) :: rest = (w0 - w1) :: (w1 + w1) :: rest := by
      norm_num
    simp only [adjust_for_urgency, List.getD_cons_succ, List.getD_cons_zero, List.set]
    rw [hv]
    simp
  · intro h0 hsum
    simp only [adjust_for_urgency]
    have h1 : ("standard" : String) = "express" ↔ False := by simp
    have h2 : ("standard" : String) = "rush" ↔ False := by simp
    rw [if_neg (h1.not.mpr not_false), if_neg (h2.not.mpr not_false)]
    rw [map_max_of_nonneg _ h0, hsum]
    simp [div_one]

/-- Witness for C5 at the default weight vector. -/
theorem adjust_for_urgency_formula_witness :
    (∀ x ∈ [(0.4 : ℝ), 0.3, 0.2, 0.1], 0 ≤ x) ∧ ([(0.4 : ℝ), 0.3, 0.2, 0.1]).sum = 1 ∧
    adjust_for_urgency [(0.4 : ℝ), 0.3, 0.2, 0.1] "standard" = [0.4, 0.3, 0.2, 0.1] := by
  have hnn : ∀ x ∈ [(0.4 : ℝ), 0.3, 0.2, 0.1], 0 ≤ x := by
    intro x hx
    simp only [List.mem_cons, List.mem_nil_iff, or_false] at hx
    rcases hx with rfl | rfl | rfl | rfl
    all_goals norm_num
  have hsum : ([(0.4 : ℝ), 0.3, 0.2, 0.1]).sum = 1 := by norm_num
  exact ⟨hnn, hsum, (adjust_for_urgency_formula 0.4 0.3 [0.2, 0.1]).2.2 hnn hsum⟩


/-! ## C1: rank consistency of run_topsis -/

lemma reassignRanks_length (l : List RankedEntry) : ∀ k, (reassignRanks k l).length = l.length := by
  induction l with
  | nil => intro k; rfl
  | cons e es ih =>
    intro k
    simp [reassignRanks, ih]

lemma reassignRanks_map_rank (l : List RankedEntry) :
    ∀ k, (reassignRanks k l).map RankedEntry.rank = List.range' k l.length := by
  induction l with
  | nil => intro k; rfl
  | cons e es ih =>
    intro k
    simp [reassignRanks, List.range'_succ, ih]

lemma reassignRanks_map_score (l : List RankedEntry) :
    ∀ k, (reassignRanks k l).map RankedEntry.score = l.map RankedEntry.score := by
  induction l with
  | nil => intro k; rfl
  | cons e es ih =>
    intro k
    simp [reassignRanks, ih]

lemma buildResults_length (df : TDF) (weights : List ℝ) (ct : List String)
    (un ug : Bool) (depth : ℕ) (td : Option TrainingData) (idxs : List ℕ) :
    ∀ k, (buildResults df weights ct un ug depth td k idxs).length = idxs.length := by
  induction idxs with
  | nil => intro k; rfl
  | cons i is ih =>
    intro k
    simp [buildResults, ih]

lemma argsortDesc_length (v : List ℝ) : (argsortDesc v).length = v.length := by
  simp [argsortDesc]

lemma scoresList_length (df : TDF) (weights : List ℝ) (ct : List String)
    (un ug : Bool) (td : Option TrainingData) :
    (scoresList df weights ct un ug td).length = df.rows.length := by
  simp [scoresList, baseScoresList]

lemma sorted_scoreGE_iff (l : List RankedEntry) :
    List.Sorted scoreGE l ↔
      List.Pairwise (fun a b : ℝ => b ≤ a) (l.map RankedEntry.score) := by
  rw [List.pairwise_map]
  rfl

lemma sorted_reassignRanks (l : List RankedEntry) (k : ℕ) (h : List.Sorted scoreGE l) :
    List.Sorted scoreGE (reassignRanks k l) := by
  rw [sorted_scoreGE_iff, reassignRanks_map_score]
  exact (sorted_scoreGE_iff l).mp h

lemma rank_of_mem_reassignRanks (l : List RankedEntry) :
    ∀ k e, e ∈ reassignRanks k l → k ≤ e.rank := by
  induction l with
  | nil => intro k e h; cases h
  | cons x xs ih =>
    intro k e h
    rcases List.mem_cons.mp h with rfl | h2
    · exact le_refl k
    · exact le_trans (Nat.le_succ k) (ih (k + 1) e h2)

lemma score_of_mem_reassignRanks (l : List RankedEntry) :
    ∀ k e, e ∈ reassignRanks k l → ∃ b ∈ l, e.score = b.score := by
  induction l with
  | nil => intro k e h; cases h
  | cons x xs ih =>
    intro k e h
    rcases List.mem_cons.mp h with rfl | h2
    · exact ⟨x, List.mem_cons_self x xs, rfl⟩
    · obtain ⟨b, hb, hs⟩ := ih (k + 1) e h2
      exact ⟨b, List.mem_cons_of_mem x hb, hs⟩

lemma reassignRanks_top (l : List RankedEntry) :
    ∀ k, List.Sorted scoreGE l →
      ∀ e ∈ reassignRanks k l, ∀ e1 ∈ reassignRanks k l, e1.rank = k → e.score ≤ e1.score := by
  induction l with
  | nil => intro k _ e he; cases he
  | cons x xs ih =>
    intro k hsort e he e1 he1 hr
    have hx : ∀ b ∈ xs, b.score ≤ x.score := List.rel_of_sorted_cons hsort
    rcases List.mem_cons.mp he1 with rfl | h1
    · rcases List.mem_cons.mp he with rfl | h2
      · exact le_refl _
      · obtain ⟨b, hb, hs⟩ := score_of_mem_reassignRanks xs (k + 1) e h2
        exact le_trans (hs ▸ hx b hb) (le_refl _)
    · have := rank_of_mem_reassignRanks xs (k + 1) e1 h1
      omega

/-- C1: for every call, `run_topsis` returns as many entries as input rows;
the assigned ranks are exactly 1..N in list order (hence a permutation of
1..N with no gaps or duplicates); entries are ordered by non-increasing final
(post-training-adjustment) score; and the entry with rank 1 has the maximal
final score — ranks are reassigned after the per-forwarder multipliers are
applied and the results re-sorted, never from the pre-adjustment score. -/
theorem run_topsis_rank_consistency (df : TDF) (weights : List ℝ) (ct : List String)
    (un ug : Bool) (depth : ℕ) (td : Option TrainingData) :
    (run_topsis df weights ct un ug depth td).length = df.rows.length ∧
    (run_topsis df weights ct un ug depth td).map RankedEntry.rank =
      List.range' 1 df.rows.length ∧
    List.Sorted scoreGE (run_topsis df weights ct un ug depth td) ∧
    ∀ e ∈ run_topsis df weights ct un ug depth td,
      ∀ e1 ∈ run_topsis df weights ct un ug depth td,
        e1.rank = 1 → e.score ≤ e1.score := by
  have hLen : (List.insertionSort scoreGE
      (buildResults df weights ct un ug depth td 1
        (argsortDesc (scoresList df weights ct un ug td)))).length = df.rows.length := by
    rw [List.length_insertionSort, buildResults_length, argsortDesc_length, scoresList_length]
  have hSort : List.Sorted scoreGE (List.insertionSort scoreGE
      (buildResults df weights ct un ug depth td 1
        (argsortDesc (scoresList df weights ct un ug td)))) :=
    List.sorted_insertionSort scoreGE _
  refine ⟨?_, ?_, ?_, ?_⟩
  · unfold run_topsis
    rw [reassignRanks_length, hLen]
  · unfold run_topsis
    rw [reassignRanks_map_rank, hLen]
  · unfold run_topsis
    exact sorted_reassignRanks _ 1 hSort
  · unfold run_topsis
    exact reassignRanks_top _ 1 hSort


/-! ## C7: process_logistics_data and the SchemaError claim -/

/-- C7 counterexample: `process_logistics_data` performs no name validation —
the source defines no `SchemaError` anywhere — so a record lacking `name` is
silently included in the resulting table rather than reported: the one-record
input below lacks `name` and the call succeeds with its coerced row in the
table. -/
theorem process_without_name_included :
    (⟨none, none, some 1, some 2, some 0.9, some true⟩ : RawForwarder).name = none ∧
    process_logistics_data [⟨none, none, some 1, some 2, some 0.9, some true⟩] =
      Except.ok [⟨none, none, some 1, some 2, some 0.9, some 1⟩] := by
  refine ⟨rfl, ?_⟩
  simp [process_logistics_data, trackingColumnHasNaN, trackingColumnPresent, coerceForwarder]

/-- C7 (amended): `process_logistics_data` performs no name validation and
defines no `SchemaError`.  When the `tracking` key is uniformly present or
uniformly absent the call succeeds with one coerced row per input record
(tracking to 0/1, numeric fields to float), silently including records that
lack `name`; its only failure is the `ValueError` raised by `astype(int)`
when the `tracking` column mixes present and absent values — and that failure
condition does not depend on any record's `name`. -/
theorem process_logistics_data_no_schema_error (fs : List RawForwarder) :
    (trackingColumnHasNaN fs = false →
      process_logistics_data fs = Except.ok (fs.map coerceForwarder) ∧
      ∀ f ∈ fs, coerceForwarder f ∈ fs.map coerceForwarder) ∧
    (trackingColumnHasNaN fs = true →
      process_logistics_data fs =
        Except.error "ValueError: cannot convert non-finite values to integer") ∧
    trackingColumnHasNaN (fs.map (fun f => { f with name := none })) =
      trackingColumnHasNaN fs := by
  refine ⟨?_, ?_, ?_⟩
  · intro h
    refine ⟨?_, fun f hf => List.mem_map_of_mem coerceForwarder hf⟩
    unfold process_logistics_data
    rw [h]
    rfl
  · intro h
    unfold process_logistics_data
    rw [h]
    rfl
  · unfold trackingColumnHasNaN trackingColumnPresent
    rw [List.any_map, List.all_map]
    rfl

/-- Witness for the amended C7: a nameless record with the tracking key
present is coerced and included (success path), and a two-record list mixing
present and absent tracking raises the ValueError (failure path). -/
theorem process_logistics_data_no_schema_error_witness :
    (trackingColumnHasNaN [⟨none, none, some 1, none, none, some true⟩] = false ∧
      process_logistics_data [⟨none, none, some 1, none, none, some true⟩] =
        Except.ok [coerceForwarder ⟨none, none, some 1, none, none, some true⟩] ∧
      coerceForwarder ⟨none, none, some 1, none, none, some true⟩ ∈
        [(⟨none, none, some 1, none, none, some true⟩ : RawForwarder)].map coerceForwarder) ∧
    (trackingColumnHasNaN
        [⟨some "y", some "Y", none, none, none, some true⟩,
         ⟨some "z", some "Z", none, none, none, none⟩] = true ∧
      process_logistics_data
        [⟨some "y", some "Y", none, none, none, some true⟩,
         ⟨some "z", some "Z", none, none, none, none⟩] =
        Except.error "ValueError: cannot convert non-finite values to integer") := by
  have h1 : trackingColumnHasNaN [⟨none, none, some 1, none, none, some true⟩] = false := rfl
  have h2 : trackingColumnHasNaN
      [⟨some "y", some "Y", none, none, none, some true⟩,
       ⟨some "z", some "Z", none, none, none, none⟩] = true := rfl
  have hok := (process_logistics_data_no_schema_error
    [⟨none, none, some 1, none, none, some true⟩]).1 h1
  have herr := (process_logistics_data_no_schema_error
    [⟨some "y", some "Y", none, none, none, some true⟩,
     ⟨some "z", some "Z", none, none, none, none⟩]).2.1 h2
  exact ⟨⟨h1, hok.1, hok.2 _ (List.mem_singleton_self _)⟩, ⟨h2, herr⟩⟩

/-! ## C4: live-snapshot precedence in the resolution cascade -/

lemma loadTiered_of_live (origin destination cargo : String) (snap : Snapshot)
    (mirror : Mirror) (h : liveJoin snap origin destination cargo ≠ []) :
    loadForwardersForRouteTiered origin destination cargo true (some snap) mirror =
      (liveJoin snap origin destination cargo, Tier.live) := by
  unfold loadForwardersForRouteTiered
  simp only [if_pos rfl, ite_true]
  rw [if_neg]
  simp only [List.isEmpty_iff]
  exact h

/-- C4 (amended): whenever the live snapshot yields a non-empty join, the
resolution result equals the live-computed join exactly, for every state of
the local mirror (the mirror is never consulted), and each returned forwarder
is produced from a matching rate card with cost from the card's `base_cost`,
time from the matched route's `typical_transit_days`, reliability from the
first matching performance-analytics record — falling back to the forwarder
record's own reliability and only then to 0.8 — and tracking from the first
matching service flag — falling back to the record's own flag and only then
to False. -/
theorem live_snapshot_precedence (origin destination cargo : String) (snap : Snapshot)
    (h : liveJoin snap origin destination cargo ≠ []) :
    (∀ mirror : Mirror,
      load_forwarders_for_route origin destination cargo true (some snap) mirror =
        liveJoin snap origin destination cargo ∧
      (loadForwardersForRouteTiered origin destination cargo true (some snap) mirror).2 =
        Tier.live) ∧
    ∀ jf ∈ liveJoin snap origin destination cargo,
      ∃ rid card f,
        findRouteId snap.routes origin destination = some rid ∧ rid ≠ "" ∧
        card ∈ snap.rate_cards ∧ card.route_id = some rid ∧ card.cargo_type = some cargo ∧
        lookupForwarder snap.forwarders card.forwarder_id = some f ∧
        jf.id = f.id ∧ jf.name = f.name ∧
        jf.cost = card.base_cost.getD 0 ∧
        jf.time = routeTransit snap.routes rid f ∧
        jf.reliability = analyticsReliability snap.performance_analytics card.forwarder_id rid f ∧
        jf.tracking = serviceTracking snap.forwarder_services card.forwarder_id f := by
  constructor
  · intro mirror
    have := loadTiered_of_live origin destination cargo snap mirror h
    unfold load_forwarders_for_route
    rw [this]
    exact ⟨rfl, rfl⟩
  · intro jf hjf
    unfold liveJoin at hjf
    cases hfind : findRouteId snap.routes origin destination with
    | none => rw [hfind] at hjf; cases hjf
    | some rid =>
      rw [hfind] at hjf
      have hjf2 : jf ∈ (if rid = "" then [] else
          List.filterMap (joinLiveCard snap rid cargo) snap.rate_cards) := hjf
      by_cases hrid : rid = ""
      · rw [if_pos hrid] at hjf2; cases hjf2
      · rw [if_neg hrid] at hjf2
        obtain ⟨card, hcard, hjoin⟩ := List.mem_filterMap.mp hjf2
        unfold joinLiveCard at hjoin
        by_cases hmatch : card.route_id = some rid ∧ card.cargo_type = some cargo
        · rw [if_pos hmatch] at hjoin
          cases hlook : lookupForwarder snap.forwarders card.forwarder_id with
          | none => rw [hlook] at hjoin; cases hjoin
          | some f =>
            rw [hlook] at hjoin
            have hjoin2 : some
                ({ id := f.id, name := f.name, cost := card.base_cost.getD 0,
                   time := routeTransit snap.routes rid f,
                   reliability := analyticsReliability snap.performance_analytics
                     card.forwarder_id rid f,
                   tracking := serviceTracking snap.forwarder_services card.forwarder_id f } :
                  JoinedForwarder) = some jf := hjoin
            obtain rfl := Option.some.inj hjoin2
            exact ⟨rid, card, f, rfl, hrid, hcard, hmatch.1, hmatch.2, hlook,
              rfl, rfl, rfl, rfl, rfl, rfl⟩
        · rw [if_neg hmatch] at hjoin; cases hjoin

/-- The live snapshot used as a concrete fixture: one matching route, one
matching rate card, one forwarder that carries its own reliability value and
no analytics or service records. -/
def snapC4 : Snapshot :=
  { routes := [⟨some "r1", some "CN", some "KE", some 10⟩]
    rate_cards := [⟨some "r1", some "general", some "f1", some 100⟩]
    forwarders := [⟨some "f1", some "X", none, none, some 0.5, none⟩]
    forwarder_services := []
    performance_analytics := [] }

lemma liveJoin_snapC4 :
    liveJoin snapC4 "CN" "KE" "general" = [⟨some "f1", some "X", 100, some 10, 0.5, false⟩] := by
  simp [liveJoin, snapC4, findRouteId, joinLiveCard, lookupForwarder, routeTransit,
    analyticsReliability, serviceTracking, List.find?, List.filterMap, List.filter]

/-- C4 counterexample: under the claim as stated, a snapshot whose matching
chain has no performance-analytics record must yield reliability 0.8; the code
instead keeps the forwarder record's own reliability (0.5 here), so the claim
fails at this input. -/
theorem live_join_reliability_not_default :
    snapC4.performance_analytics = [] ∧
    (load_forwarders_for_route "CN" "KE" "general" true (some snapC4) ⟨[], [], []⟩).map
      JoinedForwarder.reliability = [0.5] ∧
    (0.5 : ℝ) ≠ 0.8 := by
  have h : liveJoin snapC4 "CN" "KE" "general" ≠ [] := by
    rw [liveJoin_snapC4]
    simp
  have := loadTiered_of_live "CN" "KE" "general" snapC4 ⟨[], [], []⟩ h
  refine ⟨rfl, ?_, by norm_num⟩
  unfold load_forwarders_for_route
  rw [this, liveJoin_snapC4]
  rfl

/-- Witness for C4 at `snapC4` with a mirror holding conflicting data for the
same route: the result still equals the live join. -/
theorem live_snapshot_precedence_witness :
    liveJoin snapC4 "CN" "KE" "general" ≠ [] ∧
    load_forwarders_for_route "CN" "KE" "general" true (some snapC4)
      ⟨[⟨some "f1", some "X", none, none, some 0.99, none⟩],
       [⟨some "r1", some "CN", some "KE", some 99⟩],
       [⟨some "r1", some "general", some "f1", some 999⟩]⟩ =
      liveJoin snapC4 "CN" "KE" "general" := by
  have h : liveJoin snapC4 "CN" "KE" "general" ≠ [] := by
    rw [liveJoin_snapC4]
    simp
  exact ⟨h, ((live_snapshot_precedence "CN" "KE" "general" snapC4 h).1 _).1⟩

/-! ## C9: no tier indicator on the resolution result -/

/-- Live snapshot fixture whose join result can also be produced by the
mirror pass. -/
def snapC9 : Snapshot :=
  { routes := [⟨some "r1", some "CN", some "KE", some 10⟩]
    rate_cards := [⟨some "r1", some "general", some "f1", some 100⟩]
    forwarders := [⟨some "f1", some "X", none, none, some 0.9, some true⟩]
    forwarder_services := []
    performance_analytics := [] }

/-- Mirror fixture holding the same records as `snapC9`. -/
def mirrorC9 : Mirror :=
  { forwarders := [⟨some "f1", some "X", none, none, some 0.9, some true⟩]
    routes := [⟨some "r1", some "CN", some "KE", some 10⟩]
    rate_cards := [⟨some "r1", some "general", some "f1", some 100⟩] }

lemma tieredC9_live :
    loadForwardersForRouteTiered "CN" "KE" "general" true (some snapC9) ⟨[], [], []⟩ =
      ([⟨some "f1", some "X", 100, some 10, 0.9, true⟩], Tier.live) := by
  have h : liveJoin snapC9 "CN" "KE" "general" =
      [⟨some "f1", some "X", 100, some 10, 0.9, true⟩] := by
    simp [liveJoin, snapC9, findRouteId, joinLiveCard, lookupForwarder, routeTransit,
      analyticsReliability, serviceTracking, List.find?, List.filterMap, List.filter]
  rw [loadTiered_of_live _ _ _ _ _ (by rw [h]; simp), h]

lemma tieredC9_mirror :
    loadForwardersForRouteTiered "CN" "KE" "general" true none mirrorC9 =
      ([⟨some "f1", some "X", 100, some 10, 0.9, true⟩], Tier.mirrored) := by
  have h : mirrorJoin mirrorC9 "CN" "KE" "general" =
      [⟨some "f1", some "X", 100, some 10, 0.9, true⟩] := by
    simp [mirrorJoin, mirrorC9, findRouteId, joinMirrorCard, lookupForwarder, routeTransit,
      List.find?, List.filterMap, List.filter]
  unfold loadForwardersForRouteTiered
  simp only [List.isEmpty_nil, ite_true, if_true]
  rw [h]
  rfl

/-- C9 counterexample: a live resolution and a mirrored resolution that return
exactly the same forwarder list — the returned value carries no tier
indicator, so a caller cannot determine the tier from it. -/
theorem tier_collision :
    (loadForwardersForRouteTiered "CN" "KE" "general" true (some snapC9) ⟨[], [], []⟩).2 =
      Tier.live ∧
    (loadForwardersForRouteTiered "CN" "KE" "general" true none mirrorC9).2 = Tier.mirrored ∧
    (loadForwardersForRouteTiered "CN" "KE" "general" true (some snapC9) ⟨[], [], []⟩).1 =
      (loadForwardersForRouteTiered "CN" "KE" "general" true none mirrorC9).1 := by
  rw [tieredC9_live, tieredC9_mirror]
  exact ⟨rfl, rfl, rfl⟩

/-- C9 (amended): `load_forwarders_for_route` returns only the plain
forwarder list; the synthetic fallback set is fixed and untagged (identical
for every route), and results of different tiers can coincide, so no function
of the returned value recovers the tier. -/
theorem no_tier_indicator :
    (∀ o1 d1 o2 d2 : String,
      generate_fallback_forwarders o1 d1 = generate_fallback_forwarders o2 d2) ∧
    ∃ (snap : Snapshot) (m0 m1 : Mirror),
      (loadForwardersForRouteTiered "CN" "KE" "general" true (some snap) m0).2 = Tier.live ∧
      (loadForwardersForRouteTiered "CN" "KE" "general" true none m1).2 = Tier.mirrored ∧
      (loadForwardersForRouteTiered "CN" "KE" "general" true (some snap) m0).1 =
        (loadForwardersForRouteTiered "CN" "KE" "general" true none m1).1 := by
  refine ⟨fun _ _ _ _ => rfl, snapC9, ⟨[], [], []⟩, mirrorC9, ?_⟩
  rw [tieredC9_live, tieredC9_mirror]
  exact ⟨rfl, rfl, rfl⟩


/-! ## C6: tie-breaking order -/

lemma run_topsis_pair (r0 r1 : TRow) (hasTr : Bool) (weights : List ℝ) (ct : List String)
    (un ug : Bool) (depth : ℕ)
    (h : (scoresList ⟨[r0, r1], hasTr⟩ weights ct un ug none).getD 0 0 ≤
      (scoresList ⟨[r0, r1], hasTr⟩ weights ct un ug none).getD 1 0) :
    run_topsis ⟨[r0, r1], hasTr⟩ weights ct un ug depth none =
      [{ mkEntry ⟨[r0, r1], hasTr⟩ weights ct un ug depth none 1 1 with rank := 1 },
       { mkEntry ⟨[r0, r1], hasTr⟩ weights ct un ug depth none 2 0 with rank := 2 }] := by
  have hle : idxLe (scoresList ⟨[r0, r1], hasTr⟩ weights ct un ug none) 0 1 :=
    h.lt_or_eq.elim Or.inl (fun e => Or.inr ⟨e, by norm_num⟩)
  have hargsort : argsortDesc (scoresList ⟨[r0, r1], hasTr⟩ weights ct un ug none) = [1, 0] := by
    unfold argsortDesc
    have hlen : (scoresList ⟨[r0, r1], hasTr⟩ weights ct un ug none).length = 2 := rfl
    rw [hlen]
    have hins : List.insertionSort (idxLe (scoresList ⟨[r0, r1], hasTr⟩ weights ct un ug none))
        (List.range 2) = [0, 1] := by
      show List.orderedInsert (idxLe (scoresList ⟨[r0, r1], hasTr⟩ weights ct un ug none))
        0 [1] = [0, 1]
      simp only [List.orderedInsert]
      rw [if_pos hle]
    rw [hins]
    rfl
  have hE1 : (mkEntry ⟨[r0, r1], hasTr⟩ weights ct un ug depth none 1 1).score =
      (scoresList ⟨[r0, r1], hasTr⟩ weights ct un ug none).getD 1 0 := rfl
  have hE0 : (mkEntry ⟨[r0, r1], hasTr⟩ weights ct un ug depth none 2 0).score =
      (scoresList ⟨[r0, r1], hasTr⟩ weights ct un ug none).getD 0 0 := rfl
  have hbuild : buildResults ⟨[r0, r1], hasTr⟩ weights ct un ug depth none 1 [1, 0] =
      [mkEntry ⟨[r0, r1], hasTr⟩ weights ct un ug depth none 1 1,
       mkEntry ⟨[r0, r1], hasTr⟩ weights ct un ug depth none 2 0] := rfl
  have hsorted : List.insertionSort scoreGE
      [mkEntry ⟨[r0, r1], hasTr⟩ weights ct un ug depth none 1 1,
       mkEntry ⟨[r0, r1], hasTr⟩ weights ct un ug depth none 2 0] =
      [mkEntry ⟨[r0, r1], hasTr⟩ weights ct un ug depth none 1 1,
       mkEntry ⟨[r0, r1], hasTr⟩ weights ct un ug depth none 2 0] := by
    show List.orderedInsert scoreGE
      (mkEntry ⟨[r0, r1], hasTr⟩ weights ct un ug depth none 1 1)
      [mkEntry ⟨[r0, r1], hasTr⟩ weights ct un ug depth none 2 0] = _
    simp only [List.orderedInsert]
    rw [if_pos]
    show (mkEntry ⟨[r0, r1], hasTr⟩ weights ct un ug depth none 2 0).score ≤
      (mkEntry ⟨[r0, r1], hasTr⟩ weights ct un ug depth none 1 1).score
    rw [hE0, hE1]
    exact h
  unfold run_topsis
  simp only [hargsort, hbuild, hsorted]
  rfl

/-- All-zero two-forwarder fixture: both rows receive base score 0. -/
def rowA : TRow := ⟨some "a", some "A", 0, 0, 0, false⟩

/-- Second row of the all-zero fixture. -/
def rowB : TRow := ⟨some "b", some "B", 0, 0, 0, false⟩

lemma scores_zero_pair (weights : List ℝ) :
    scoresList ⟨[rowA, rowB], false⟩ weights ["cost", "cost", "benefit"] false false none =
      [0, 0] := by
  simp [scoresList, baseScoresList, baseScore, extScore, sPlus, sMinus, idealCost, antiCost,
    idealTime, antiTime, idealRel, antiRel, wCost, wTime, wRel, nCost, nTime, nRel, listMax,
    listMin, ctype, trackVal, rowA, rowB]

/-- C6 counterexample: two forwarders receiving equal scores are returned in
the reverse of their input order, not input order: the all-zero two-forwarder
matrix gives both score 0, and the ranking lists forwarder "b" (input position
2) before "a" (input position 1). -/
theorem tie_not_input_order :
    ((run_topsis ⟨[rowA, rowB], false⟩ [0.4, 0.3, 0.2, 0.1] ["cost", "cost", "benefit"]
        false false 3 none).map RankedEntry.id = ["b", "a"]) ∧
    ((run_topsis ⟨[rowA, rowB], false⟩ [0.4, 0.3, 0.2, 0.1] ["cost", "cost", "benefit"]
        false false 3 none).map RankedEntry.score = [0, 0]) := by
  have hz := scores_zero_pair [0.4, 0.3, 0.2, 0.1]
  have h := run_topsis_pair rowA rowB false [0.4, 0.3, 0.2, 0.1]
    ["cost", "cost", "benefit"] false false 3 (le_of_eq (by rw [hz]; rfl))
  rw [h]
  refine ⟨rfl, ?_⟩
  show [(scoresList ⟨[rowA, rowB], false⟩ [0.4, 0.3, 0.2, 0.1] ["cost", "cost", "benefit"]
      false false none).getD 1 0,
    (scoresList ⟨[rowA, rowB], false⟩ [0.4, 0.3, 0.2, 0.1] ["cost", "cost", "benefit"]
      false false none).getD 0 0] = [0, 0]
  rw [hz]
  rfl

instance (v : List ℝ) : IsTotal ℕ (idxLe v) := by
  constructor
  intro i j
  rcases lt_trichotomy (v.getD i 0) (v.getD j 0) with h | h | h
  · exact Or.inl (Or.inl h)
  · rcases le_total i j with hij | hij
    · exact Or.inl (Or.inr ⟨h, hij⟩)
    · exact Or.inr (Or.inr ⟨h.symm, hij⟩)
  · exact Or.inr (Or.inl h)

instance (v : List ℝ) : IsTrans ℕ (idxLe v) := by
  constructor
  intro a b c hab hbc
  rcases hab with h1 | ⟨e1, l1⟩
  · rcases hbc with h2 | ⟨e2, l2⟩
    · exact Or.inl (h1.trans h2)
    · exact Or.inl (lt_of_lt_of_le h1 (le_of_eq e2))
  · rcases hbc with h2 | ⟨e2, l2⟩
    · exact Or.inl (lt_of_le_of_lt (le_of_eq e1) h2)
    · exact Or.inr ⟨e1.trans e2, l1.trans l2⟩

instance (v : List ℝ) : IsAntisymm ℕ (idxLe v) := by
  constructor
  intro a b hab hba
  rcases hab with h1 | ⟨e1, l1⟩
  · rcases hba with h2 | ⟨e2, l2⟩
    · exact absurd (h1.trans h2) (lt_irrefl _)
    · exact absurd (e2 ▸ h1) (lt_irrefl _)
  · rcases hba with h2 | ⟨e2, l2⟩
    · exact absurd (e1 ▸ h2) (lt_irrefl _)
    · exact Nat.le_antisymm l1 l2

lemma filter_orderedInsert {α : Type} (r : α → α → Prop) [DecidableRel r] (p : α → Bool)
    (x : α) :
    ∀ l : List α, (p x = true → ∀ y ∈ l, p y = true → r x y) →
      (List.orderedInsert r x l).filter p =
        if p x then x :: l.filter p else l.filter p := by
  intro l
  induction l with
  | nil =>
    intro _
    simp [List.orderedInsert, List.filter_cons]
  | cons y ys ih =>
    intro h
    by_cases hxy : r x y
    · rw [List.orderedInsert_of_le r ys hxy, List.filter_cons]
    · have hstep : List.orderedInsert r x (y :: ys) = y :: List.orderedInsert r x ys := by
        simp [List.orderedInsert, hxy]
      rw [hstep, List.filter_cons]
      by_cases hpx : p x = true
      · have hpy : ¬p y = true := fun hpy =>
          hxy (h hpx y (List.mem_cons_self y ys) hpy)
        rw [ih (fun hx y2 hy2 => h hx y2 (List.mem_cons_of_mem y hy2))]
        simp [hpx, hpy, List.filter_cons]
      · rw [ih (fun hx => absurd hx hpx)]
        simp [hpx, List.filter_cons]

lemma filter_insertionSort {α : Type} (r : α → α → Prop) [DecidableRel r] (p : α → Bool) :
    ∀ l : List α, (∀ x ∈ l, ∀ y ∈ l, p x = true → p y = true → r x y) →
      (List.insertionSort r l).filter p = l.filter p := by
  intro l
  induction l with
  | nil => intro _; rfl
  | cons x xs ih =>
    intro h
    show (List.orderedInsert r x (List.insertionSort r xs)).filter p = _
    rw [filter_orderedInsert r p x (List.insertionSort r xs)
      (fun hpx y hy hpy => h x (List.mem_cons_self x xs) y
        (List.mem_cons_of_mem x ((List.mem_insertionSort r).mp hy)) hpx hpy),
      ih (fun a ha b hb => h a (List.mem_cons_of_mem x ha) b (List.mem_cons_of_mem x hb)),
      List.filter_cons]

lemma insertionSort_idxLe_filter (v : List ℝ) (c : ℝ) (n : ℕ) :
    (List.insertionSort (idxLe v) (List.range n)).filter (fun i => decide (v.getD i 0 = c)) =
      (List.range n).filter (fun i => decide (v.getD i 0 = c)) := by
  have hperm : List.Perm ((List.insertionSort (idxLe v) (List.range n)).filter
      (fun i => decide (v.getD i 0 = c)))
      ((List.range n).filter (fun i => decide (v.getD i 0 = c))) :=
    (List.perm_insertionSort (idxLe v) (List.range n)).filter _
  have hs1 : List.Sorted (idxLe v) ((List.insertionSort (idxLe v) (List.range n)).filter
      (fun i => decide (v.getD i 0 = c))) :=
    (List.sorted_insertionSort (idxLe v) (List.range n)).filter _
  have hs2 : List.Sorted (idxLe v)
      ((List.range n).filter (fun i => decide (v.getD i 0 = c))) := by
    have hlt : List.Pairwise (fun a b : ℕ => a < b)
        ((List.range n).filter (fun i => decide (v.getD i 0 = c))) :=
      (List.sorted_lt_range n).filter _
    refine List.Pairwise.imp_of_mem ?_ hlt
    intro a b ha hb hab
    have hva : v.getD a 0 = c := of_decide_eq_true ((List.mem_filter.mp ha).2)
    have hvb : v.getD b 0 = c := of_decide_eq_true ((List.mem_filter.mp hb).2)
    exact Or.inr ⟨hva.trans hvb.symm, le_of_lt hab⟩
  exact List.eq_of_perm_of_sorted hperm hs1 hs2

lemma argsortDesc_filter (v : List ℝ) (c : ℝ) :
    (argsortDesc v).filter (fun i => decide (v.getD i 0 = c)) =
      ((List.range v.length).filter (fun i => decide (v.getD i 0 = c))).reverse := by
  unfold argsortDesc
  rw [List.filter_reverse, insertionSort_idxLe_filter]

lemma applyFwdAdj_none (e : RankedEntry) : applyFwdAdj none e = e := rfl

lemma buildResults_filter_map_id (df : TDF) (weights : List ℝ) (ct : List String)
    (un ug : Bool) (depth : ℕ) (c : ℝ) :
    ∀ (idxs : List ℕ) (k : ℕ),
      ((buildResults df weights ct un ug depth none k idxs).filter
          (fun e => decide (e.score = c))).map RankedEntry.id =
        (idxs.filter (fun i =>
          decide ((scoresList df weights ct un ug none).getD i 0 = c))).map
          (fun i => (df.rows.getD i default).id.getD ("f" ++ toString (i + 1))) := by
  intro idxs
  induction idxs with
  | nil => intro k; rfl
  | cons i is ih =>
    intro k
    show ((applyFwdAdj none (mkEntry df weights ct un ug depth none k i) ::
        buildResults df weights ct un ug depth none (k + 1) is).filter
        (fun e => decide (e.score = c))).map RankedEntry.id = _
    rw [applyFwdAdj_none, List.filter_cons, List.filter_cons]
    by_cases h : (scoresList df weights ct un ug none).getD i 0 = c
    · have h2 : (mkEntry df weights ct un ug depth none k i).score = c := h
      rw [if_pos (decide_eq_true h2), if_pos (decide_eq_true h), List.map_cons, List.map_cons,
        ih (k + 1)]
      rfl
    · have h2 : ¬(mkEntry df weights ct un ug depth none k i).score = c := h
      rw [if_neg (fun hc => absurd (of_decide_eq_true hc) h2),
        if_neg (fun hc => absurd (of_decide_eq_true hc) h)]
      exact ih (k + 1)

lemma reassignRanks_filter_map_id (c : ℝ) :
    ∀ (l : List RankedEntry) (k : ℕ),
      ((reassignRanks k l).filter (fun e => decide (e.score = c))).map RankedEntry.id =
        (l.filter (fun e => decide (e.score = c))).map RankedEntry.id := by
  intro l
  induction l with
  | nil => intro k; rfl
  | cons e es ih =>
    intro k
    show (({ e with rank := k } :: reassignRanks (k + 1) es).filter
        (fun x => decide (x.score = c))).map RankedEntry.id = _
    rw [List.filter_cons, List.filter_cons]
    by_cases h : e.score = c
    · have h2 : ({ e with rank := k } : RankedEntry).score = c := h
      rw [if_pos (decide_eq_true h2), if_pos (decide_eq_true h), List.map_cons, List.map_cons,
        ih (k + 1)]
    · have h2 : ¬({ e with rank := k } : RankedEntry).score = c := h
      rw [if_neg (fun hc => absurd (of_decide_eq_true hc) h2),
        if_neg (fun hc => absurd (of_decide_eq_true hc) h)]
      exact ih (k + 1)

/-- C6 (amended): forwarders receiving equal final scores appear in the
returned ranking in the REVERSE of their input order (shown here for calls
without per-forwarder training adjustments, where the final score is the
extension score): for any score value c, the entries whose score is c are
listed exactly in reverse original-index order, because the stable ascending
`np.argsort` followed by `[::-1]` reverses ties and the final stable
descending re-sort preserves that reversed order. -/
theorem equal_scores_reverse_input_order (df : TDF) (weights : List ℝ) (ct : List String)
    (un ug : Bool) (depth : ℕ) (c : ℝ) :
    ((run_topsis df weights ct un ug depth none).filter
        (fun e => decide (e.score = c))).map RankedEntry.id =
      (((List.range df.rows.length).filter (fun i =>
          decide ((scoresList df weights ct un ug none).getD i 0 = c))).reverse).map
        (fun i => (df.rows.getD i default).id.getD ("f" ++ toString (i + 1))) := by
  show ((reassignRanks 1 (List.insertionSort scoreGE
      (buildResults df weights ct un ug depth none 1
        (argsortDesc (scoresList df weights ct un ug none))))).filter
      (fun e => decide (e.score = c))).map RankedEntry.id = _
  rw [reassignRanks_filter_map_id]
  have hcond : ∀ x ∈ buildResults df weights ct un ug depth none 1
      (argsortDesc (scoresList df weights ct un ug none)),
      ∀ y ∈ buildResults df weights ct un ug depth none 1
        (argsortDesc (scoresList df weights ct un ug none)),
      (fun e => decide (e.score = c)) x = true → (fun e => decide (e.score = c)) y = true →
      scoreGE x y := by
    intro x _ y _ hx hy
    have hxc : x.score = c := of_decide_eq_true hx
    have hyc : y.score = c := of_decide_eq_true hy
    show y.score ≤ x.score
    rw [hxc, hyc]
  rw [filter_insertionSort scoreGE _ _ hcond, buildResults_filter_map_id, argsortDesc_filter,
    scoresList_length]

/-! ## C8: the sensitivity path versus the main TOPSIS scoring path -/

/-- Fixture row with reliability 0.6 and all other attributes zero. -/
def rowA8 : TRow := ⟨some "a", some "A", 0, 0, 0.6, false⟩

/-- Fixture row with reliability 0.8 and all other attributes zero. -/
def rowB8 : TRow := ⟨some "b", some "B", 0, 0, 0.8, false⟩

/-- Two-forwarder fixture differing only in reliability. -/
def df8 : TDF := ⟨[rowA8, rowB8], true⟩

/-- The default weight vector. -/
def w8 : List ℝ := [0.4, 0.3, 0.2, 0.1]

/-- The default criteria types. -/
def ct8 : List String := ["cost", "cost", "benefit", "benefit"]

lemma finalW_none (df : TDF) (v : List ℝ) (i : ℕ) (h : i < ncols df) :
    finalW df v none i = v.getD i 0 := by
  unfold finalW hasWA wTrunc
  simp [h]

lemma relNorm_df8 : relNorm df8 = 1 := by
  have h : (((df8.rows.map TRow.reliability).map (fun x => x ^ 2)).sum : ℝ) = 1 := by
    show (0.6 : ℝ) ^ 2 + ((0.8 : ℝ) ^ 2 + 0) = 1
    norm_num
  unfold relNorm sqNorm
  rw [h, Real.sqrt_one]
  unfold fixNorm
  norm_num

lemma nRel_df8_A : nRel df8 rowA8 = 0.6 := by
  unfold nRel
  rw [relNorm_df8, show rowA8.reliability = (0.6 : ℝ) from rfl]
  norm_num

lemma nRel_df8_B : nRel df8 rowB8 = 0.8 := by
  unfold nRel
  rw [relNorm_df8, show rowB8.reliability = (0.8 : ℝ) from rfl]
  norm_num

lemma nCost_df8_A : nCost df8 rowA8 = 0 := zero_div _

lemma nCost_df8_B : nCost df8 rowB8 = 0 := zero_div _

lemma nTime_df8_A : nTime df8 rowA8 = 0 := zero_div _

lemma nTime_df8_B : nTime df8 rowB8 = 0 := zero_div _

lemma nTrack_df8_A : nTrack df8 rowA8 = 0 := zero_div _

lemma nTrack_df8_B : nTrack df8 rowB8 = 0 := zero_div _

lemma wCost_df8_A (v : List ℝ) : wCost df8 v none rowA8 = 0 := by
  unfold wCost
  rw [nCost_df8_A, zero_mul]

lemma wCost_df8_B (v : List ℝ) : wCost df8 v none rowB8 = 0 := by
  unfold wCost
  rw [nCost_df8_B, zero_mul]

lemma wTime_df8_A (v : List ℝ) : wTime df8 v none rowA8 = 0 := by
  unfold wTime
  rw [nTime_df8_A, zero_mul]

lemma wTime_df8_B (v : List ℝ) : wTime df8 v none rowB8 = 0 := by
  unfold wTime
  rw [nTime_df8_B, zero_mul]

lemma wTrack_df8_A (v : List ℝ) : wTrack df8 v none rowA8 = 0 := by
  unfold wTrack
  rw [nTrack_df8_A, zero_mul]

lemma wTrack_df8_B (v : List ℝ) : wTrack df8 v none rowB8 = 0 := by
  unfold wTrack
  rw [nTrack_df8_B, zero_mul]

lemma wRel_df8_A (v : List ℝ) : wRel df8 v none rowA8 = 0.6 * v.getD 2 0 := by
  unfold wRel
  rw [nRel_df8_A, finalW_none df8 v 2 (show (2 : ℕ) < 4 by norm_num)]

lemma wRel_df8_B (v : List ℝ) : wRel df8 v none rowB8 = 0.8 * v.getD 2 0 := by
  unfold wRel
  rw [nRel_df8_B, finalW_none df8 v 2 (show (2 : ℕ) < 4 by norm_num)]

lemma idealCost_df8 (v : List ℝ) : idealCost df8 v ct8 none = 0 := by
  unfold idealCost
  rw [if_neg (show ¬ctype ct8 0 = "benefit" by decide)]
  show listMin [wCost df8 v none rowA8, wCost df8 v none rowB8] = 0
  rw [wCost_df8_A, wCost_df8_B]
  show min (0 : ℝ) 0 = 0
  exact min_self 0

lemma antiCost_df8 (v : List ℝ) : antiCost df8 v ct8 none = 0 := by
  unfold antiCost
  rw [if_neg (show ¬ctype ct8 0 = "benefit" by decide)]
  show listMax [wCost df8 v none rowA8, wCost df8 v none rowB8] = 0
  rw [wCost_df8_A, wCost_df8_B]
  show max (0 : ℝ) 0 = 0
  exact max_self 0

lemma idealTime_df8 (v : List ℝ) : idealTime df8 v ct8 none = 0 := by
  unfold idealTime
  rw [if_neg (show ¬ctype ct8 1 = "benefit" by decide)]
  show listMin [wTime df8 v none rowA8, wTime df8 v none rowB8] = 0
  rw [wTime_df8_A, wTime_df8_B]
  show min (0 : ℝ) 0 = 0
  exact min_self 0

lemma antiTime_df8 (v : List ℝ) : antiTime df8 v ct8 none = 0 := by
  unfold antiTime
  rw [if_neg (show ¬ctype ct8 1 = "benefit" by decide)]
  show listMax [wTime df8 v none rowA8, wTime df8 v none rowB8] = 0
  rw [wTime_df8_A, wTime_df8_B]
  show max (0 : ℝ) 0 = 0
  exact max_self 0

lemma idealRel_df8 (v : List ℝ) (h2 : 0 ≤ v.getD 2 0) :
    idealRel df8 v ct8 none = 0.8 * v.getD 2 0 := by
  unfold idealRel
  rw [if_pos (show ctype ct8 2 = "benefit" from rfl)]
  show listMax [wRel df8 v none rowA8, wRel df8 v none rowB8] = 0.8 * v.getD 2 0
  rw [wRel_df8_A, wRel_df8_B]
  show max (0.6 * v.getD 2 0) (0.8 * v.getD 2 0) = 0.8 * v.getD 2 0
  exact max_eq_right (by nlinarith)

lemma antiRel_df8 (v : List ℝ) (h2 : 0 ≤ v.getD 2 0) :
    antiRel df8 v ct8 none = 0.6 * v.getD 2 0 := by
  unfold antiRel
  rw [if_pos (show ctype ct8 2 = "benefit" from rfl)]
  show listMin [wRel df8 v none rowA8, wRel df8 v none rowB8] = 0.6 * v.getD 2 0
  rw [wRel_df8_A, wRel_df8_B]
  show min (0.6 * v.getD 2 0) (0.8 * v.getD 2 0) = 0.6 * v.getD 2 0
  exact min_eq_left (by nlinarith)

lemma idealTrack_df8 (v : List ℝ) : idealTrack df8 v ct8 none = 0 := by
  unfold idealTrack
  rw [if_pos (show ctype ct8 3 = "benefit" from rfl)]
  show listMax [wTrack df8 v none rowA8, wTrack df8 v none rowB8] = 0
  rw [wTrack_df8_A, wTrack_df8_B]
  show max (0 : ℝ) 0 = 0
  exact max_self 0

lemma antiTrack_df8 (v : List ℝ) : antiTrack df8 v ct8 none = 0 := by
  unfold antiTrack
  rw [if_pos (show ctype ct8 3 = "benefit" from rfl)]
  show listMin [wTrack df8 v none rowA8, wTrack df8 v none rowB8] = 0
  rw [wTrack_df8_A, wTrack_df8_B]
  show min (0 : ℝ) 0 = 0
  exact min_self 0

lemma sPlus_df8_B (v : List ℝ) (h2 : 0 ≤ v.getD 2 0) : sPlus df8 v ct8 none rowB8 = 0 := by
  unfold sPlus
  rw [wCost_df8_B, wTime_df8_B, wRel_df8_B, wTrack_df8_B, idealCost_df8, idealTime_df8,
    idealRel_df8 v h2, idealTrack_df8, if_pos (show df8.hasTracking = true from rfl)]
  have h : ((0 : ℝ) - 0) ^ 2 + ((0 : ℝ) - 0) ^ 2 +
      (0.8 * v.getD 2 0 - 0.8 * v.getD 2 0) ^ 2 + ((0 : ℝ) - 0) ^ 2 = 0 := by ring
  rw [h, Real.sqrt_zero]

lemma sMinus_df8_B (v : List ℝ) (h2 : 0 ≤ v.getD 2 0) :
    sMinus df8 v ct8 none rowB8 = 0.2 * v.getD 2 0 := by
  unfold sMinus
  rw [wCost_df8_B, wTime_df8_B, wRel_df8_B, wTrack_df8_B, antiCost_df8, antiTime_df8,
    antiRel_df8 v h2, antiTrack_df8, if_pos (show df8.hasTracking = true from rfl)]
  have h : ((0 : ℝ) - 0) ^ 2 + ((0 : ℝ) - 0) ^ 2 +
      (0.8 * v.getD 2 0 - 0.6 * v.getD 2 0) ^ 2 + ((0 : ℝ) - 0) ^ 2 =
      (0.2 * v.getD 2 0) ^ 2 := by ring
  rw [h, Real.sqrt_sq (by nlinarith)]

lemma sPlus_df8_A (v : List ℝ) (h2 : 0 ≤ v.getD 2 0) :
    sPlus df8 v ct8 none rowA8 = 0.2 * v.getD 2 0 := by
  unfold sPlus
  rw [wCost_df8_A, wTime_df8_A, wRel_df8_A, wTrack_df8_A, idealCost_df8, idealTime_df8,
    idealRel_df8 v h2, idealTrack_df8, if_pos (show df8.hasTracking = true from rfl)]
  have h : ((0 : ℝ) - 0) ^ 2 + ((0 : ℝ) - 0) ^ 2 +
      (0.6 * v.getD 2 0 - 0.8 * v.getD 2 0) ^ 2 + ((0 : ℝ) - 0) ^ 2 =
      (0.2 * v.getD 2 0) ^ 2 := by ring
  rw [h, Real.sqrt_sq (by nlinarith)]

lemma sMinus_df8_A (v : List ℝ) (h2 : 0 ≤ v.getD 2 0) : sMinus df8 v ct8 none rowA8 = 0 := by
  unfold sMinus
  rw [wCost_df8_A, wTime_df8_A, wRel_df8_A, wTrack_df8_A, antiCost_df8, antiTime_df8,
    antiRel_df8 v h2, antiTrack_df8, if_pos (show df8.hasTracking = true from rfl)]
  have h : ((0 : ℝ) - 0) ^ 2 + ((0 : ℝ) - 0) ^ 2 +
      (0.6 * v.getD 2 0 - 0.6 * v.getD 2 0) ^ 2 + ((0 : ℝ) - 0) ^ 2 = 0 := by ring
  rw [h, Real.sqrt_zero]

lemma baseScore_df8_B (v : List ℝ) (h2 : 0 ≤ v.getD 2 0) :
    baseScore df8 v ct8 none rowB8 = 0.2 * v.getD 2 0 / (0.2 * v.getD 2 0 + 1e-9) := by
  unfold baseScore
  rw [sPlus_df8_B v h2, sMinus_df8_B v h2, zero_add]

lemma baseScore_df8_A (v : List ℝ) (h2 : 0 ≤ v.getD 2 0) :
    baseScore df8 v ct8 none rowA8 = 0 := by
  unfold baseScore
  rw [sMinus_df8_A v h2]
  exact zero_div _


lemma extScore_neut (td : Option TrainingData) (x : ℝ) :
    extScore true false td x = neutrosophic_score (neutrosophic_transform x (uncOf td)) := rfl

lemma neut_eval_high (x : ℝ) (h0 : 0 ≤ x) (hx1 : x ≤ 1) (h1 : 1 - x ≤ 0.1) :
    neutrosophic_score (neutrosophic_transform x 0.1) = 1.5 * x - 0.5 := by
  simp only [neutrosophic_transform, neutrosophic_score]
  rw [min_eq_left hx1, max_eq_left h0, min_eq_right h1]
  have hF : (1 : ℝ) - x - (1 - x) = 0 := by ring
  rw [hF, max_self]
  ring

lemma neut_eval_low (x : ℝ) (h0 : 0 ≤ x) (hx1 : x ≤ 1) (h1 : (0.1 : ℝ) ≤ 1 - x) :
    neutrosophic_score (neutrosophic_transform x 0.1) = 2 * x - 0.95 := by
  simp only [neutrosophic_transform, neutrosophic_score]
  rw [min_eq_left hx1, max_eq_left h0, min_eq_left h1,
    max_eq_right (show (0 : ℝ) ≤ 1 - x - 0.1 by linarith)]
  ring

lemma scoresList_df8 :
    scoresList df8 w8 ct8 true false none =
      [-0.95, 1.5 * (0.2 * 0.2 / (0.2 * 0.2 + 1e-9)) - 0.5] := by
  have h2 : (0 : ℝ) ≤ w8.getD 2 0 := by
    show (0 : ℝ) ≤ 0.2
    norm_num
  have hA := baseScore_df8_A w8 h2
  have hB := baseScore_df8_B w8 h2
  show [extScore true false none (baseScore df8 w8 ct8 none rowA8),
    extScore true false none (baseScore df8 w8 ct8 none rowB8)] = _
  rw [hA, hB, extScore_neut, extScore_neut, show uncOf none = (0.1 : ℝ) from rfl,
    show w8.getD 2 0 = (0.2 : ℝ) from rfl]
  rw [neut_eval_low 0 (by norm_num) (by norm_num) (by norm_num),
    neut_eval_high (0.2 * 0.2 / (0.2 * 0.2 + 1e-9)) (by norm_num) (by norm_num) (by norm_num)]
  norm_num

lemma run_df8 :
    run_topsis df8 w8 ct8 true false 5 none =
      [{ mkEntry df8 w8 ct8 true false 5 none 1 1 with rank := 1 },
       { mkEntry df8 w8 ct8 true false 5 none 2 0 with rank := 2 }] := by
  have hle : (scoresList ⟨[rowA8, rowB8], true⟩ w8 ct8 true false none).getD 0 0 ≤
      (scoresList ⟨[rowA8, rowB8], true⟩ w8 ct8 true false none).getD 1 0 := by
    have h : scoresList ⟨[rowA8, rowB8], true⟩ w8 ct8 true false none =
        [-0.95, 1.5 * (0.2 * 0.2 / (0.2 * 0.2 + 1e-9)) - 0.5] := scoresList_df8
    rw [h]
    show (-0.95 : ℝ) ≤ 1.5 * (0.2 * 0.2 / (0.2 * 0.2 + 1e-9)) - 0.5
    norm_num
  exact run_topsis_pair rowA8 rowB8 true w8 ct8 true false 5 hle

lemma entryB8_score :
    (mkEntry df8 w8 ct8 true false 5 none 1 1).score =
      1.5 * (0.2 * 0.2 / (0.2 * 0.2 + 1e-9)) - 0.5 := by
  show (scoresList df8 w8 ct8 true false none).getD 1 0 = _
  rw [scoresList_df8]
  rfl

lemma entryB8_costFactor : (mkEntry df8 w8 ct8 true false 5 none 1 1).costFactor = some 0 := by
  show some (nCost df8 rowB8) = some 0
  rw [nCost_df8_B]

lemma entryB8_timeFactor : (mkEntry df8 w8 ct8 true false 5 none 1 1).timeFactor = some 0 := by
  show some (nTime df8 rowB8) = some 0
  rw [nTime_df8_B]

lemma entryB8_relFactor :
    (mkEntry df8 w8 ct8 true false 5 none 1 1).reliabilityFactor = some 0.8 := by
  show some (nRel df8 rowB8) = some 0.8
  rw [nRel_df8_B]

lemma entryB8_hasTracking :
    (mkEntry df8 w8 ct8 true false 5 none 1 1).hasTracking = some false := rfl

lemma perturb_w8_cost :
    perturbWeights w8 0 1.1 = [0.44 / 1.04, 0.3 / 1.04, 0.2 / 1.04, 0.1 / 1.04] := by
  unfold perturbWeights
  have hset : w8.set 0 (w8.getD 0 0 * 1.1) = [0.44, 0.3, 0.2, 0.1] := by
    show ([0.4, 0.3, 0.2, 0.1] : List ℝ).set 0 (0.4 * 1.1) = [0.44, 0.3, 0.2, 0.1]
    norm_num [List.set]
  rw [hset]
  have hsum : ([0.44, 0.3, 0.2, 0.1] : List ℝ).sum = 1.04 := by norm_num
  show List.map (fun w => w / ([0.44, 0.3, 0.2, 0.1] : List ℝ).sum) [0.44, 0.3, 0.2, 0.1] =
    [0.44 / 1.04, 0.3 / 1.04, 0.2 / 1.04, 0.1 / 1.04]
  rw [hsum]
  rfl

lemma surrogate_B8 :
    calculate_new_score (mkEntry df8 w8 ct8 true false 5 none 1 1) (perturbWeights w8 0 1.1) =
      (1 - 0) * (0.44 / 1.04) + (1 - 0) * (0.3 / 1.04) + 0.8 * (0.2 / 1.04) +
        0 * (0.1 / 1.04) := by
  unfold calculate_new_score
  rw [perturb_w8_cost, entryB8_costFactor, entryB8_timeFactor, entryB8_relFactor,
    entryB8_hasTracking]
  rfl

lemma spec_B8 :
    baseScore df8 (perturbWeights w8 0 1.1) ct8 none rowB8 =
      0.2 * (0.2 / 1.04) / (0.2 * (0.2 / 1.04) + 1e-9) := by
  rw [perturb_w8_cost]
  rw [baseScore_df8_B [0.44 / 1.04, 0.3 / 1.04, 0.2 / 1.04, 0.1 / 1.04]
    (by show (0 : ℝ) ≤ 0.2 / 1.04; norm_num)]
  rfl

/-- C8 counterexample: at analysis depth 5 the rank-1 entry of the fixture is
forwarder "b"; the first reported sensitivity value (cost +10%) computed by
`calculate_sensitivity_changes` differs from the percentage change of the
closeness score recomputed by the main TOPSIS path under the same perturbed,
renormalized weight vector — the sensitivity path does not agree with the
scoring path. -/
theorem sensitivity_not_topsis_recompute :
    ((run_topsis df8 w8 ct8 true false 5 none).getD 0 default).id = "b" ∧
    ((run_topsis df8 w8 ct8 true false 5 none).getD 0 default).rank = 1 ∧
    (calculate_sensitivity_changes ((run_topsis df8 w8 ct8 true false 5 none).getD 0 default)
        w8).getD 0 0 ≠
      (spec_recomputed_changes df8 ct8 none
        ((run_topsis df8 w8 ct8 true false 5 none).getD 0 default) w8 rowB8).getD 0 0 := by
  rw [run_df8]
  refine ⟨rfl, rfl, ?_⟩
  show pctChange { mkEntry df8 w8 ct8 true false 5 none 1 1 with rank := 1 }
      (calculate_new_score { mkEntry df8 w8 ct8 true false 5 none 1 1 with rank := 1 }
        (perturbWeights w8 0 1.1)) ≠
    pctChange { mkEntry df8 w8 ct8 true false 5 none 1 1 with rank := 1 }
      (baseScore df8 (perturbWeights w8 0 1.1) ct8 none rowB8)
  have hscore : ({ mkEntry df8 w8 ct8 true false 5 none 1 1 with rank := 1 } :
      RankedEntry).score = 1.5 * (0.2 * 0.2 / (0.2 * 0.2 + 1e-9)) - 0.5 := entryB8_score
  have hsur : calculate_new_score
      ({ mkEntry df8 w8 ct8 true false 5 none 1 1 with rank := 1 } : RankedEntry)
      (perturbWeights w8 0 1.1) =
      (1 - 0) * (0.44 / 1.04) + (1 - 0) * (0.3 / 1.04) + 0.8 * (0.2 / 1.04) +
        0 * (0.1 / 1.04) := surrogate_B8
  unfold pctChange
  rw [hscore, hsur, spec_B8]
  norm_num

/-- C8 (amended): the reported sensitivity values are the percentage changes,
relative to the unperturbed reported score, of the linear surrogate
`calculate_new_score` — `(1-costFactor)*w0 + (1-timeFactor)*w1 +
reliabilityFactor*w2 + hasTracking*w3` — evaluated at the weight vector with
the respective component multiplied by 1.1 or 0.9 and renormalized (the
perturbed vector sums to 1 whenever its pre-normalization sum is positive);
they are not recomputations of the TOPSIS closeness score. -/
theorem sensitivity_changes_surrogate (result : RankedEntry) (weights : List ℝ) :
    calculate_sensitivity_changes result weights =
      [ (calculate_new_score result (perturbWeights weights 0 1.1) - result.score) /
          result.score * 100,
        (calculate_new_score result (perturbWeights weights 0 0.9) - result.score) /
          result.score * 100,
        (calculate_new_score result (perturbWeights weights 1 1.1) - result.score) /
          result.score * 100,
        (calculate_new_score result (perturbWeights weights 1 0.9) - result.score) /
          result.score * 100,
        (calculate_new_score result (perturbWeights weights 2 1.1) - result.score) /
          result.score * 100,
        (calculate_new_score result (perturbWeights weights 2 0.9) - result.score) /
          result.score * 100 ] ∧
    ∀ (idx : ℕ) (factor : ℝ),
      0 < (weights.set idx (weights.getD idx 0 * factor)).sum →
      (perturbWeights weights idx factor).sum = 1 := by
  refine ⟨rfl, ?_⟩
  intro idx factor h
  unfold perturbWeights
  rw [sum_map_div, div_self (ne_of_gt h)]

end DeepCAL
